import Mathlib

/-!
# Verification of the muta-cross asset ledger and cross-chain bridge

A shallow embedding of the two services in this repository
(`src/services/asset` and `src/services/crosschain`) and proofs of the
specification's claims about them.

Machine integers (`u128`, `u64`, `u32`) are modelled as `Nat` with explicit
bound checks where the source performs checked/overflowing arithmetic.
Rust `Result`-style fallibility is modelled by an `Outcome` type which also
records panics (`unwrap`, out-of-bounds indexing, `byteorder` assertions),
since several claims are about the panic behaviour of the public surface.
Stateful service code is modelled as explicit state passing over a
`ChainState` record holding the contents of the services' backing stores.
-/

namespace MutaCross

/-! ## Basic chain types

`Hash` and `Address` live in the `protocol` crate, which is not part of
this repository's sources; only their shape (fixed-size byte strings with
hex printing/parsing) is used by the services. -/

/-- A 32-byte hash from the `protocol` crate (not in `src/`): modelled as
its byte sequence, each byte a `Nat < 256`. -/
structure Hash where
  bytes : List Nat
  deriving DecidableEq, Repr

/-- A 20-byte account address from the `protocol` crate (not in `src/`):
modelled as its byte sequence. -/
structure Address where
  bytes : List Nat
  deriving DecidableEq, Repr

/-- Lexicographic strict order on byte sequences: the comparison backing
the `BTreeMap<Address, u128>` key order. -/
def bytesLt : List Nat → List Nat → Bool
  | [], [] => false
  | [], _ :: _ => true
  | _ :: _, [] => false
  | a :: as, b :: bs => if a < b then true else if b < a then false else bytesLt as bs

def Address.lt (a b : Address) : Bool := bytesLt a.bytes b.bytes

/-! ## Hex utilities

Used by `Hex::as_string_trim0x`, `hex::decode`, `Hash::from_hex`,
`Address::from_hex`, `Hash::as_hex` and `from_str_radix`. -/

/-- Value of one hex digit character, `none` for a non-digit. -/
def hexDigitVal (c : Char) : Option Nat :=
  if '0' ≤ c ∧ c ≤ '9' then some (c.toNat - 48)
  else if 'a' ≤ c ∧ c ≤ 'f' then some (c.toNat - 87)
  else if 'A' ≤ c ∧ c ≤ 'F' then some (c.toNat - 55)
  else none

/-- Decode a list of hex digit characters two at a time into bytes;
`none` on odd length or a bad digit (the behaviour of `hex::decode`). -/
def hexPairsToBytes : List Char → Option (List Nat)
  | [] => some []
  | [_] => none
  | c1 :: c2 :: rest =>
    match hexDigitVal c1, hexDigitVal c2, hexPairsToBytes rest with
    | some h, some l, some bs => some ((h * 16 + l) :: bs)
    | _, _, _ => none

/-- `hex::decode` on a string (no `0x` prefix expected). -/
def hexDecode (s : String) : Option (List Nat) := hexPairsToBytes s.data

/-- Hex digits of one byte, lowercase. -/
def byteToHexChars (b : Nat) : List Char :=
  let d (n : Nat) : Char := if n < 10 then Char.ofNat (48 + n) else Char.ofNat (87 + n)
  [d (b / 16 % 16), d (b % 16)]

/-- Lowercase hex string of a byte sequence. -/
def bytesToHex (bs : List Nat) : String := ⟨bs.flatMap byteToHexChars⟩

/-- `Hash::as_hex` (protocol crate, not in `src/`): `0x` followed by the
lowercase hex of the 32 bytes. -/
def Hash.as_hex (h : Hash) : String := "0x" ++ bytesToHex h.bytes

/-- Parse a string of hex digits as `from_str_radix(s, 16)` does: an
optional leading `+`, then one or more hex digits; the result must fit
below `bound` (the `PosOverflow` check of the fixed-width parse).
Modelled from the spec: "parses hex-encoded numeric fields into
fixed-width integers". -/
def fromStrRadix16 (bound : Nat) (s : String) : Option Nat :=
  let ds := if s.data.head? = some '+' then s.data.tail else s.data
  if ds = [] then none
  else
    match ds.mapM hexDigitVal with
    | none => none
    | some vals =>
      let v := vals.foldl (fun acc d => acc * 16 + d) 0
      if v < bound then some v else none

/-! ## Service errors

The union of `asset::ServiceError` and `crosschain::ServiceError`, plus
the `protocol`-crate errors surfaced by `Hash::from_hex` /
`Address::from_hex` (modelled, since that crate is not in `src/`). -/

inductive ServiceError where
  | JsonParse
  | Exists (id : Hash)
  | NotFoundAsset (id : Hash)
  | LackOfBalance (expect real : Nat)
  | FeeNotEnough
  | U128Overflow
  | RecipientIsSender
  | ApproveToYourself
  | NoPermission
  | InvalidCrossTx
  | InvalidCrossHeader
  | InvalidAddressHex
  | InvalidHashHex
  deriving DecidableEq, Repr

deriving instance DecidableEq for Except

/-- `Hash::from_hex` — modelled from the spec: a hash is the decode of a
`0x`-prefixed 64-hex-digit string (protocol crate, not in `src/`). -/
def Hash.from_hex (s : String) : Except ServiceError Hash :=
  if s.data.take 2 = ['0', 'x'] ∧ s.data.length = 66 then
    match hexPairsToBytes (s.data.drop 2) with
    | some bs => Except.ok ⟨bs⟩
    | none => Except.error ServiceError.InvalidHashHex
  else Except.error ServiceError.InvalidHashHex

/-- `Address::from_hex` — modelled from the spec: an address is the decode
of a `0x`-prefixed 40-hex-digit string (protocol crate, not in `src/`). -/
def Address.from_hex (s : String) : Except ServiceError Address :=
  if s.data.take 2 = ['0', 'x'] ∧ s.data.length = 42 then
    match hexPairsToBytes (s.data.drop 2) with
    | some bs => Except.ok ⟨bs⟩
    | none => Except.error ServiceError.InvalidAddressHex
  else Except.error ServiceError.InvalidAddressHex

/-! ## u128 bounds and little-endian reads -/

def U128_MOD : Nat := 2 ^ 128
def U32_MOD : Nat := 2 ^ 32
def U64_MOD : Nat := 2 ^ 64

/-- `LittleEndian::read_u128` reads the first 16 bytes of a slice; the
`byteorder` crate asserts the slice holds at least 16 bytes (panics
otherwise) — callers must check `16 ≤ bs.length` for the read to be
meaningful. -/
def readU128LE (bs : List Nat) : Nat :=
  ((bs.take 16).reverse).foldl (fun acc b => acc * 256 + b) 0

/-- `LittleEndian::write_u128`: the 16 little-endian bytes of `v`. -/
def writeU128LE (v : Nat) : List Nat :=
  (List.range 16).map (fun i => v / 256 ^ i % 256)

/-! ## Association-list stores

`StoreMap` and the SDK's per-account values are point-get / point-insert
key-value stores; modelled as association lists where `insert` overwrites
in place or appends. -/

def alGet {κ ν : Type} [DecidableEq κ] : List (κ × ν) → κ → Option ν
  | [], _ => none
  | (k', v) :: rest, k => if k = k' then some v else alGet rest k

def alContains {κ ν : Type} [DecidableEq κ] (m : List (κ × ν)) (k : κ) : Bool :=
  (alGet m k).isSome

def alInsert {κ ν : Type} [DecidableEq κ] : List (κ × ν) → κ → ν → List (κ × ν)
  | [], k, v => [(k, v)]
  | (k', v') :: rest, k, v =>
    if k = k' then (k, v) :: rest else (k', v') :: alInsert rest k v

/-- `BTreeMap<Address, u128>` get. -/
def btGet (m : List (Address × Nat)) (k : Address) : Option Nat := alGet m k

/-- `BTreeMap<Address, u128>` insert/overwrite, keeping the list sorted by
the address key order (a `BTreeMap` iterates in key order, which the
balance codec relies on). -/
def btSet : List (Address × Nat) → Address → Nat → List (Address × Nat)
  | [], k, v => [(k, v)]
  | (k', v') :: rest, k, v =>
    if k = k' then (k, v) :: rest
    else if Address.lt k k' then (k, v) :: (k', v') :: rest
    else (k', v') :: btSet rest k v

/-! ## Data model (`src/services/asset/src/types.rs`) -/

/-- `Asset`: the persisted asset descriptor. -/
structure Asset where
  id : Hash
  name : String
  supply : Nat
  issuer : Address
  deriving DecidableEq, Repr

/-- `AssetBalance`: per-(account, asset) balance plus the allowance
`BTreeMap`, kept sorted by address. -/
structure AssetBalance where
  value : Nat
  allowance : List (Address × Nat)
  deriving DecidableEq, Repr

structure MintTokenPayload where
  token_id : Hash
  receiver : Address
  amount : Nat
  deriving DecidableEq, Repr

structure BurnTokenPayload where
  token_id : Hash
  user : Address
  amount : Nat
  deriving DecidableEq, Repr

structure CreateAssetPayload where
  name : String
  supply : Nat
  deriving DecidableEq, Repr

structure TransferPayload where
  asset_id : Hash
  «to» : Address
  value : Nat
  deriving DecidableEq, Repr

structure TransferFromPayload where
  asset_id : Hash
  sender : Address
  recipient : Address
  value : Nat
  deriving DecidableEq, Repr

structure TransferEvent where
  asset_id : Hash
  from_ : Address
  «to» : Address
  value : Nat
  deriving DecidableEq, Repr

structure ApproveEvent where
  asset_id : Hash
  grantor : Address
  grantee : Address
  value : Nat
  deriving DecidableEq, Repr

structure TransferFromEvent where
  asset_id : Hash
  caller : Address
  sender : Address
  recipient : Address
  value : Nat
  deriving DecidableEq, Repr

/-! ## Data model (`src/services/crosschain/src/types.rs`) -/

/-- `Hex` (protocol crate): a `0x`-prefixed hex string, modelled as the
raw string. `as_string` returns it unchanged; `as_string_trim0x` drops
the two prefix characters. -/
def Hex : Type := String

instance : DecidableEq Hex := inferInstanceAs (DecidableEq String)
instance : Repr Hex := inferInstanceAs (Repr String)

def Hex.as_string (h : Hex) : String := h

def Hex.as_string_trim0x (h : Hex) : String := String.drop h 2

structure CkbHeader where
  compact_target : Hex
  version : Hex
  timestamp : Hex
  number : Hex
  epoch : Hex
  parent_hash : Hash
  transactions_root : Hash
  proposals_hash : Hash
  uncles_hash : Hash
  dao : Hash
  nonce : Hex
  deriving DecidableEq, Repr

structure CkbHeaderInner where
  compact_target : Nat
  version : Nat
  timestamp : Nat
  number : Nat
  epoch : Nat
  parent_hash : Hash
  transactions_root : Hash
  proposals_hash : Hash
  uncles_hash : Hash
  dao : Hash
  nonce : Nat
  deriving DecidableEq, Repr

/-- `CkbHeaderInner::from`: parse each hex field with the matching
fixed-width `from_str_radix`; any parse failure aborts. Note the source
parses `h.epoch` for the `nonce` field. -/
def CkbHeaderInner.from (h : CkbHeader) : Option CkbHeaderInner :=
  match fromStrRadix16 U32_MOD (Hex.as_string_trim0x h.compact_target),
      fromStrRadix16 U32_MOD (Hex.as_string_trim0x h.version),
      fromStrRadix16 U64_MOD (Hex.as_string_trim0x h.timestamp),
      fromStrRadix16 U64_MOD (Hex.as_string_trim0x h.number),
      fromStrRadix16 U64_MOD (Hex.as_string_trim0x h.epoch),
      fromStrRadix16 U128_MOD (Hex.as_string_trim0x h.epoch) with
  | some ct, some v, some ts, some num, some ep, some non =>
    some { compact_target := ct, version := v, timestamp := ts, number := num,
           epoch := ep, parent_hash := h.parent_hash,
           transactions_root := h.transactions_root,
           proposals_hash := h.proposals_hash, uncles_hash := h.uncles_hash,
           dao := h.dao, nonce := non }
  | _, _, _, _, _, _ => none

inductive ScriptHashType where
  | data
  | Type
  deriving DecidableEq, Repr

structure Script where
  code_hash : Hash
  hash_type : ScriptHashType
  args : Hex
  deriving DecidableEq, Repr

structure OutPoint where
  tx_hash : Hash
  index : Hex
  deriving DecidableEq, Repr

inductive DepType where
  | code
  | depgroup
  deriving DecidableEq, Repr

structure CellDep where
  out_point : OutPoint
  dep_type : DepType
  deriving DecidableEq, Repr

structure CellInput where
  since : Hex
  previous_output : OutPoint
  deriving DecidableEq, Repr

structure CellOutput where
  capacity : Hex
  lock : Script
  type_ : Option Script
  deriving DecidableEq, Repr

structure CkbTx where
  version : Hex
  cell_deps : List CellDep
  header_deps : List Hash
  inputs : List CellInput
  outputs : List CellOutput
  outputs_data : List Hex
  witnesses : List Hex
  deriving DecidableEq, Repr

structure CkbMessage where
  tx : CkbTx
  proof : List Hash
  deriving DecidableEq, Repr

structure MessagePayload where
  height : Nat
  messages : List CkbMessage
  deriving DecidableEq, Repr

structure UpdateHeadersPayload where
  headers : List CkbHeader
  deriving DecidableEq, Repr

structure BurnPayload where
  token_id : Hash
  receiver : String
  amount : Nat
  deriving DecidableEq, Repr

structure MintTokenEvent where
  asset_id : Hash
  asset_name : String
  receiver : Address
  amount : Nat
  kind : String
  topic : String
  deriving DecidableEq, Repr

structure BurnTokenEvent where
  asset_id : Hash
  muta_sender : Address
  ckb_receiver : String
  amount : Nat
  nonce : Nat
  kind : String
  topic : String
  deriving DecidableEq, Repr

/-- A persisted event: the structured content of each
`ctx.emit_event(serde_json::to_string(&e))` call (the JSON serialization
of these flat structs is total, so events are modelled structurally). -/
inductive Event where
  | assetCreated (a : Asset)
  | transfer (e : TransferEvent)
  | approve (e : ApproveEvent)
  | transferFrom (e : TransferFromEvent)
  | mintToken (e : MintTokenEvent)
  | burnToken (e : BurnTokenEvent)
  deriving DecidableEq, Repr

/-! ## Chain state and the service monad -/

/-- The combined backing stores of both services:
`assets` (asset service `StoreMap "assets"`), the SDK account values
(`AssetBalance` keyed by account and asset), the `native_asset` scalar
slot, and the crosschain service's `headers`, `effected_proofs` and
`nonce` stores. -/
structure ChainState where
  assets : List (Hash × Asset)
  accountValues : List ((Address × Hash) × AssetBalance)
  nativeAssetId : Option Hash
  headers : List (Nat × CkbHeaderInner)
  effectedProofs : List (Hash × Bool)
  nonce : Nat
  deriving DecidableEq, Repr

/-- The result of a call: structured success, structured service error, or
a Rust panic (`unwrap` / `expect` / out-of-bounds index / short
`read_u128` slice). -/
inductive Outcome (α : Type) where
  | ok (a : α)
  | err (e : ServiceError)
  | panicked (msg : String)
  deriving DecidableEq, Repr

/-- The service computation monad: explicit state passing over
`ChainState` plus an append-only event log; short-circuits on error and
panic exactly like `?` and an unwinding panic. -/
def M (α : Type) : Type := ChainState → List Event → Outcome α × ChainState × List Event

def M.pure {α : Type} (a : α) : M α := fun s ev => (Outcome.ok a, s, ev)

def M.bind {α β : Type} (x : M α) (f : α → M β) : M β := fun s ev =>
  match x s ev with
  | (Outcome.ok a, s', ev') => f a s' ev'
  | (Outcome.err e, s', ev') => (Outcome.err e, s', ev')
  | (Outcome.panicked m, s', ev') => (Outcome.panicked m, s', ev')

instance : Monad M where
  pure := M.pure
  bind := M.bind

/-- Return a service error (`return Err(...)` / `?` propagation). -/
def throwE {α : Type} (e : ServiceError) : M α := fun s ev => (Outcome.err e, s, ev)

/-- A Rust panic crossing the call boundary. -/
def panicked {α : Type} (msg : String) : M α := fun s ev => (Outcome.panicked msg, s, ev)

/-- Lift an `Except` from the protocol helpers, propagating the error as
`?` does. -/
def liftExcept {α : Type} : Except ServiceError α → M α
  | Except.ok a => M.pure a
  | Except.error e => throwE e

def getState : M ChainState := fun s ev => (Outcome.ok s, s, ev)

def modifyState (f : ChainState → ChainState) : M Unit :=
  fun s ev => (Outcome.ok (), f s, ev)

/-- `ctx.emit_event(...)`: append one record to the event sink. -/
def emitEvent (e : Event) : M Unit := fun s ev => (Outcome.ok (), s, ev ++ [e])

/-- Run a service call on a state with an empty event log. -/
def run {α : Type} (m : M α) (s : ChainState) : Outcome α × ChainState × List Event :=
  m s []

/-- `ServiceContext`: the caller identity and the optional extra byte
payload (`ctx.get_caller()` / `ctx.get_extra()`). -/
structure ServiceContext where
  caller : Address
  extra : Option (List Nat)
  deriving DecidableEq, Repr

/-! ## SDK / store primitives -/

/-- `sdk.get_account_value(addr, asset)`. -/
def sdkGetAccountValue (addr : Address) (asset : Hash) : M (Option AssetBalance) := do
  let s ← getState
  M.pure (alGet s.accountValues (addr, asset))

/-- `sdk.get_account_value(..).unwrap_or(AssetBalance { value: 0, allowance: BTreeMap::new() })`. -/
def sdkGetAccountValueD (addr : Address) (asset : Hash) : M AssetBalance := do
  let b ← sdkGetAccountValue addr asset
  M.pure (b.getD { value := 0, allowance := [] })

/-- `sdk.set_account_value(addr, asset, balance)`. -/
def sdkSetAccountValue (addr : Address) (asset : Hash) (b : AssetBalance) : M Unit :=
  modifyState fun s => { s with accountValues := alInsert s.accountValues (addr, asset) b }

/-- `self.assets.contains(&id)`. -/
def assetsContains (id : Hash) : M Bool := do
  let s ← getState
  M.pure (alContains s.assets id)

/-- `self.assets.insert(id, asset)`. -/
def assetsInsert (id : Hash) (a : Asset) : M Unit :=
  modifyState fun s => { s with assets := alInsert s.assets id a }

/-- The balance observed by the `get_balance` query: the `value` field of
the record at `(user, asset)`, `0` if the record is absent. -/
def balOf (s : ChainState) (user : Address) (asset : Hash) : Nat :=
  ((alGet s.accountValues (user, asset)).map AssetBalance.value).getD 0

/-- The allowance observed by the `get_allowance` query: the entry for
`grantee` in the grantor's allowance map, `0` if absent. -/
def allowanceOf (s : ChainState) (grantor grantee : Address) (asset : Hash) : Nat :=
  match alGet s.accountValues (grantor, asset) with
  | none => 0
  | some b => (btGet b.allowance grantee).getD 0

/-! ## Asset service (`src/services/asset/src/lib.rs`) -/

/-- The sentinel issuer for lazily-registered bridge tokens
(`Address::from_hex("0xc4b0000000000000000000000000000000000000")`). -/
def sentinelIssuerHex : String := "0xc4b0000000000000000000000000000000000000"

/-- `"ckb-image_token".to_owned() + &token_id.as_hex().as_str()[2..7]`:
the display name built from byte positions 2..7 of the hex text. -/
def lazyTokenName (token_id : Hash) : String :=
  "ckb-image_token" ++ (((Hash.as_hex token_id).drop 2).take 5)

/-- `mint_token`: privileged mint, lazily registering an unseen token id
with a sentinel issuer and zero declared supply; checked add on the
receiver's balance. -/
def mint_token (ctx : ServiceContext) (payload : MintTokenPayload) : M Unit := do
  if ctx.extra.isNone then
    throwE ServiceError.NoPermission
  else do
    let token_id := payload.token_id
    let has ← assetsContains token_id
    if ¬ has then do
      let issuer ← liftExcept (Address.from_hex sentinelIssuerHex)
      let asset : Asset :=
        { id := token_id, name := lazyTokenName token_id, supply := 0, issuer := issuer }
      assetsInsert token_id asset
      sdkSetAccountValue payload.receiver asset.id
        { value := payload.amount, allowance := [] }
    else do
      let receiver_balance ← sdkGetAccountValueD payload.receiver token_id
      -- overflowing_add with explicit overflow rejection
      if receiver_balance.value + payload.amount ≥ U128_MOD then
        throwE ServiceError.U128Overflow
      else
        sdkSetAccountValue payload.receiver token_id
          { receiver_balance with value := receiver_balance.value + payload.amount }

/-- `burn_token`: privileged burn with existence and balance checks. -/
def burn_token (ctx : ServiceContext) (payload : BurnTokenPayload) : M Unit := do
  if ctx.extra.isNone then
    throwE ServiceError.NoPermission
  else do
    let has ← assetsContains payload.token_id
    if ¬ has then
      throwE (ServiceError.NotFoundAsset payload.token_id)
    else do
      let user_asset_balance ← sdkGetAccountValueD payload.user payload.token_id
      let user_balance := user_asset_balance.value
      if user_balance < payload.amount then
        throwE (ServiceError.LackOfBalance payload.amount user_balance)
      else
        sdkSetAccountValue payload.user payload.token_id
          { user_asset_balance with value := user_balance - payload.amount }

/-- Modelled from the spec: `create_asset` derives the id as
`Hash::digest(serde_json::to_string(&payload) + &caller.as_hex())`;
`Hash::digest` lives in the `protocol` crate (not in `src/`) and is
modelled as an unspecified deterministic executable digest of the name,
the declared supply and the creator bytes. No claim depends on its
collision behaviour. -/
def createAssetId (payload : CreateAssetPayload) (caller : Address) : Hash :=
  let bs := payload.name.data.map Char.toNat ++ writeU128LE payload.supply ++ caller.bytes
  ⟨(List.range 32).map (fun i => bs.foldl (fun a b => (a * 33 + b + 1) % 256) i)⟩

/-- `create_asset`: content-derived id, duplicate check, descriptor
persisted, creator credited with the declared supply. -/
def create_asset (ctx : ServiceContext) (payload : CreateAssetPayload) : M Asset := do
  let caller := ctx.caller
  let id := createAssetId payload caller
  let has ← assetsContains id
  if has then
    throwE (ServiceError.Exists id)
  else do
    let asset : Asset :=
      { id := id, name := payload.name, supply := payload.supply, issuer := caller }
    assetsInsert id asset
    sdkSetAccountValue asset.issuer asset.id { value := payload.supply, allowance := [] }
    emitEvent (Event.assetCreated asset)
    M.pure asset

/-- The sender override in `transfer` / `transfer_from`:
`Address::from_hex(&String::from_utf8(addr_hex.to_vec()).expect("extra should be hex"))?`.
`String::from_utf8` panics (via `expect`) on invalid UTF-8 — modelled at
the ASCII level (any byte ≥ 0x80 is treated as invalid); a hex parse
failure propagates as an error. -/
def extraToAddress (bs : List Nat) : M Address :=
  if bs.all (· < 128) then
    liftExcept (Address.from_hex ⟨bs.map Char.ofNat⟩)
  else
    panicked "extra should be hex"

/-- The private `_transfer`: self-transfer check, debit/credit with
checked arithmetic; the recipient credit is persisted before the sender
debit. -/
def _transfer (sender recipient : Address) (asset_id : Hash) (value : Nat) : M Unit := do
  if sender = recipient then
    throwE ServiceError.RecipientIsSender
  else do
    let sender_asset_balance ← sdkGetAccountValueD sender asset_id
    let sender_balance := sender_asset_balance.value
    if sender_balance < value then
      throwE (ServiceError.LackOfBalance value sender_balance)
    else do
      let to_asset_balance ← sdkGetAccountValueD recipient asset_id
      if to_asset_balance.value + value ≥ U128_MOD then
        throwE ServiceError.U128Overflow
      else do
        sdkSetAccountValue recipient asset_id
          { to_asset_balance with value := to_asset_balance.value + value }
        -- overflowing_sub check (unreachable: sender_balance ≥ value was checked)
        if sender_balance < value then
          throwE ServiceError.U128Overflow
        else
          sdkSetAccountValue sender asset_id
            { sender_asset_balance with value := sender_balance - value }

/-- `transfer`: the debited identity is the decoded extra payload when
present, else the caller; asset existence check, then `_transfer`, then
the `TransferEvent`. -/
def transfer (ctx : ServiceContext) (payload : TransferPayload) : M Unit := do
  let sender ← match ctx.extra with
    | some addr_hex => extraToAddress addr_hex
    | none => M.pure ctx.caller
  let asset_id := payload.asset_id
  let value := payload.value
  let toAddr := payload.to
  let has ← assetsContains asset_id
  if ¬ has then
    throwE (ServiceError.NotFoundAsset asset_id)
  else do
    _transfer sender toAddr asset_id value
    emitEvent (Event.transfer { asset_id := asset_id, from_ := sender, «to» := toAddr, value := value })

/-- `approve` (payload type `ApprovePayload = TransferPayload`):
self-approval check, asset existence check, overwrite of
`allowances[to]`, `ApproveEvent`. -/
def approve (ctx : ServiceContext) (payload : TransferPayload) : M Unit := do
  let caller := ctx.caller
  let asset_id := payload.asset_id
  let value := payload.value
  let toAddr := payload.to
  if caller = toAddr then
    throwE ServiceError.ApproveToYourself
  else do
    let has ← assetsContains asset_id
    if ¬ has then
      throwE (ServiceError.NotFoundAsset asset_id)
    else do
      let caller_asset_balance ← sdkGetAccountValueD caller asset_id
      sdkSetAccountValue caller asset_id
        { caller_asset_balance with
          allowance := btSet caller_asset_balance.allowance toAddr value }
      emitEvent (Event.approve
        { asset_id := asset_id, grantor := caller, grantee := toAddr, value := value })

/-- `transfer_from`: the spender is the decoded extra payload when
present, else the caller; allowance check and decrement (persisted),
then `_transfer(sender, recipient, value)`, then the
`TransferFromEvent`. The allowance write is persisted before `_transfer`
runs its own checks. -/
def transfer_from (ctx : ServiceContext) (payload : TransferFromPayload) : M Unit := do
  let caller ← match ctx.extra with
    | some addr_hex => extraToAddress addr_hex
    | none => M.pure ctx.caller
  let sender := payload.sender
  let recipient := payload.recipient
  let asset_id := payload.asset_id
  let value := payload.value
  let has ← assetsContains asset_id
  if ¬ has then
    throwE (ServiceError.NotFoundAsset asset_id)
  else do
    let sender_asset_balance ← sdkGetAccountValueD sender asset_id
    -- `entry(caller).or_insert(0)` reads the current allowance (the
    -- inserted 0 is only observable through the overwrite below)
    let sender_allowance := (btGet sender_asset_balance.allowance caller).getD 0
    if sender_allowance < value then
      throwE (ServiceError.LackOfBalance value sender_allowance)
    else do
      let after_sender_allowance := sender_allowance - value
      sdkSetAccountValue sender asset_id
        { sender_asset_balance with
          allowance := btSet sender_asset_balance.allowance caller after_sender_allowance }
      _transfer sender recipient asset_id value
      emitEvent (Event.transferFrom
        { asset_id := asset_id, caller := caller, sender := sender,
          recipient := recipient, value := value })

/-! ## Crosschain service (`src/services/crosschain/src/lib.rs`) -/

/-- `ADMISSION_TOKEN`: the bytes of `b"crosschain"`. -/
def ADMISSION_TOKEN : List Nat := [99, 114, 111, 115, 115, 99, 104, 97, 105, 110]

def SUDT_CODE_HASH : String :=
  "0x57dd0067814dab356e05c6def0d094bb79776711e68ffdfad2df6a7f877f7db6"

/-- Modelled from the spec: the `StoreUint64` monotonic-counter primitive
(`protocol` crate, not in `src/`); `add` increments the persisted
counter. -/
def nonceAdd (k : Nat) : M Unit :=
  modifyState fun s => { s with nonce := s.nonce + k }

def nonceGet : M Nat := do
  let s ← getState
  M.pure s.nonce

/-- `check_tx`: indexes `tx.outputs[0]` (a panic when `outputs` is
empty), then requires a present type script whose code hash equals
`SUDT_CODE_HASH` and a non-empty witness list. -/
def check_tx (tx : CkbTx) : M Unit := do
  match tx.outputs.head? with
  | none => panicked "index out of bounds: the len is 0 but the index is 0"
  | some output =>
    match output.type_ with
    | none => throwE ServiceError.InvalidCrossTx
    | some script => do
      let sudt ← liftExcept (Hash.from_hex SUDT_CODE_HASH)
      if script.code_hash ≠ sudt ∨ tx.witnesses = [] then
        throwE ServiceError.InvalidCrossTx
      else
        M.pure ()

/-- The display name `"ckb_image_token".to_owned() + &token_id.as_hex()[2..7]`
used in the two mint events. -/
def crossTokenName (token_id : Hash) : String :=
  "ckb_image_token" ++ (((Hash.as_hex token_id).drop 2).take 5)

/-- The body of the `submit_messages` loop for one message: shape check,
decode of token id / little-endian u128 amount / receiver, fee split,
and the two privileged mints (via `sdk.write` to `asset.mint_token` with
the admission token as extra), each followed by its mint event. -/
def submit_one (ctx : ServiceContext) (m : CkbMessage) : M Unit := do
  let tx := m.tx
  check_tx tx
  match tx.outputs.head? with
  | none => panicked "index out of bounds: the len is 0 but the index is 0"
  | some output =>
    match output.type_ with
    | none => panicked "called Option::unwrap on a None value"
    | some script => do
      let token_id ← liftExcept (Hash.from_hex (Hex.as_string script.args))
      match tx.outputs_data.head? with
      | none => panicked "index out of bounds: the len is 0 but the index is 0"
      | some data0 =>
        match hexDecode (Hex.as_string_trim0x data0) with
        | none => throwE ServiceError.InvalidCrossTx
        | some amount_bytes =>
          if amount_bytes.length < 16 then
            -- `byteorder` asserts the slice holds at least 16 bytes
            panicked "byteorder: slice shorter than a u128"
          else do
            let amount0 := readU128LE amount_bytes
            match tx.witnesses.getLast? with
            | none => panicked "called Option::unwrap on a None value"
            | some w => do
              let receiver ← liftExcept (Address.from_hex (Hex.as_string w))
              let amount_relay := amount0 / 100
              let amount := amount0 - amount_relay
              mint_token { caller := ctx.caller, extra := some ADMISSION_TOKEN }
                { token_id := token_id, receiver := receiver, amount := amount }
              emitEvent (Event.mintToken
                { asset_id := token_id, asset_name := crossTokenName token_id,
                  receiver := receiver, amount := amount,
                  kind := "cross_to_muta", topic := "mint_asset" })
              mint_token { caller := ctx.caller, extra := some ADMISSION_TOKEN }
                { token_id := token_id, receiver := ctx.caller, amount := amount_relay }
              emitEvent (Event.mintToken
                { asset_id := token_id, asset_name := crossTokenName token_id,
                  receiver := ctx.caller, amount := amount_relay,
                  kind := "cross_to_muta", topic := "mint_asset" })

def submit_messages_loop (ctx : ServiceContext) : List CkbMessage → M Unit
  | [] => M.pure ()
  | m :: rest => do
    submit_one ctx m
    submit_messages_loop ctx rest

/-- `submit_messages`: process each message in order; an error aborts the
loop (effects of earlier iterations are already persisted). The
`effected_proofs` store is never consulted or updated. -/
def submit_messages (ctx : ServiceContext) (payload : MessagePayload) : M Unit :=
  submit_messages_loop ctx payload.messages

def update_headers_loop : List CkbHeader → M Unit
  | [] => M.pure ()
  | h :: rest => do
    match CkbHeaderInner.from h with
    | none => throwE ServiceError.InvalidCrossHeader
    | some inner_header =>
      modifyState (fun s =>
        { s with headers := alInsert s.headers inner_header.number inner_header })
    update_headers_loop rest

/-- `update_headers`: parse and store each header by its parsed height,
overwriting any existing entry; a parse failure aborts with
`InvalidCrossHeader`. -/
def update_headers (_ctx : ServiceContext) (payload : UpdateHeadersPayload) : M Unit :=
  update_headers_loop payload.headers

/-- `burn_sudt` (burnForWithdrawal): privileged burn of the caller's
tokens via `asset.burn_token`, then `nonce.add(1)` and the withdrawal
event carrying `nonce.get()` (the post-increment value). -/
def burn_sudt (ctx : ServiceContext) (payload : BurnPayload) : M Unit := do
  burn_token { caller := ctx.caller, extra := some ADMISSION_TOKEN }
    { token_id := payload.token_id, user := ctx.caller, amount := payload.amount }
  nonceAdd 1
  let n ← nonceGet
  emitEvent (Event.burnToken
    { asset_id := payload.token_id, muta_sender := ctx.caller,
      ckb_receiver := payload.receiver, amount := payload.amount,
      nonce := n, kind := "cross_to_ckb", topic := "burn_asset" })

/-! ## RLP and the persisted codec (`src/services/asset/src/types.rs`)

The services persist `Asset`, `AssetBalance` and `CkbHeaderInner` through
`rlp::encode` / `rlp::decode` (the parity `rlp` crate). The fragment of
RLP the codecs use is modelled here: byte-string items, list items, and
the raw-slice access `Rlp::at(i)` / `as_raw()` (which returns the item
*including* its length header). -/

/-- Minimal big-endian bytes of a number, via structural recursion on a
fuel bound (`fuel ≥ n` always suffices since `n / 256 < n`). -/
def beBytesGo : Nat → Nat → List Nat
  | _, 0 => []
  | 0, _ + 1 => []
  | fuel + 1, n + 1 => beBytesGo fuel ((n + 1) / 256) ++ [(n + 1) % 256]

/-- Minimal big-endian bytes of a number (empty for `0`): the length
bytes of long-form RLP headers. -/
def beBytes (n : Nat) : List Nat := beBytesGo n n

/-- Big-endian value of bytes. -/
def beVal (bs : List Nat) : Nat := bs.foldl (fun a b => a * 256 + b) 0

/-- RLP encoding of a byte string. -/
def rlpEncBytes (bs : List Nat) : List Nat :=
  match bs with
  | [b] => if b < 128 then [b] else [129, b]
  | _ =>
    if bs.length ≤ 55 then (128 + bs.length) :: bs
    else (183 + (beBytes bs.length).length) :: (beBytes bs.length ++ bs)

/-- RLP list header around an already-encoded payload. -/
def rlpEncListPayload (p : List Nat) : List Nat :=
  if p.length ≤ 55 then (192 + p.length) :: p
  else (247 + (beBytes p.length).length) :: (beBytes p.length ++ p)

/-- Header length and payload length of the first RLP item of a slice. -/
def rlpItemSpan : List Nat → Option (Nat × Nat)
  | [] => none
  | b :: rest =>
    if b < 128 then some (0, 1)
    else if b < 184 then some (1, b - 128)
    else if b < 192 then
      let ll := b - 183
      if rest.length < ll then none else some (1 + ll, beVal (rest.take ll))
    else if b < 248 then some (1, b - 192)
    else
      let ll := b - 247
      if rest.length < ll then none else some (1 + ll, beVal (rest.take ll))

/-- Split a list payload into its items as raw slices (header included),
as `Rlp::at(i)?.as_raw()` exposes them; `fuel` bounds the recursion. -/
def rlpSplitItems : Nat → List Nat → Option (List (List Nat))
  | _, [] => some []
  | 0, _ :: _ => none
  | fuel + 1, bs =>
    match rlpItemSpan bs with
    | none => none
    | some (h, p) =>
      if bs.length < h + p then none
      else
        match rlpSplitItems fuel (bs.drop (h + p)) with
        | none => none
        | some rest => some (bs.take (h + p) :: rest)

/-- Payload of a single raw RLP item (`Rlp::data()` / `as_val` access). -/
def rlpPayload (raw : List Nat) : Option (List Nat) :=
  match rlpItemSpan raw with
  | none => none
  | some (h, p) => if raw.length = h + p then some ((raw.drop h).take p) else none

/-- `as_val::<Hash>()`: the payload must be exactly 32 bytes. -/
def rlpAsHash (raw : List Nat) : Option Hash :=
  match rlpPayload raw with
  | some bs => if bs.length = 32 then some ⟨bs⟩ else none
  | none => none

/-- `as_val::<Address>()`: the payload must be exactly 20 bytes. -/
def rlpAsAddress (raw : List Nat) : Option Address :=
  match rlpPayload raw with
  | some bs => if bs.length = 20 then some ⟨bs⟩ else none
  | none => none

/-- `as_val::<String>()`: the payload decoded as text (modelled at the
ASCII level, the only form the fixtures use). -/
def rlpAsString (raw : List Nat) : Option String :=
  match rlpPayload raw with
  | some bs => if bs.all (· < 128) then some ⟨bs.map Char.ofNat⟩ else none
  | none => none

/-- `impl rlp::Encodable for Asset` /
`FixedCodec::encode_fixed`: a 4-item list — id, name, the 16
little-endian bytes of `supply` appended as a byte string, issuer. -/
def Asset.encode_fixed (a : Asset) : List Nat :=
  rlpEncListPayload
    (rlpEncBytes a.id.bytes ++
     rlpEncBytes (a.name.data.map Char.toNat) ++
     rlpEncBytes (writeU128LE a.supply) ++
     rlpEncBytes a.issuer.bytes)

/-- `impl rlp::Decodable for Asset` / `FixedCodec::decode_fixed`: fields
from `rlp.at(0/1/3)?.as_val()?`, and `supply` read with
`LittleEndian::read_u128` from `rlp.at(2)?.as_raw()` — the raw slice of
item 2 *including its RLP length header*. -/
def Asset.decode_fixed (bs : List Nat) : Option Asset :=
  match rlpPayload bs with
  | none => none
  | some payload =>
    match rlpSplitItems payload.length payload with
    | none => none
    | some items =>
      match items[0]?, items[1]?, items[2]?, items[3]? with
      | some raw0, some raw1, some raw2, some raw3 =>
        (match rlpAsHash raw0, rlpAsString raw1, rlpAsAddress raw3 with
         | some id, some name, some issuer =>
            if raw2.length < 16 then none
            else some { id := id, name := name, supply := readU128LE raw2, issuer := issuer }
         | _, _, _ => none)
      | _, _, _, _ => none

/-! ## Concrete fixtures

Shared concrete accounts, assets and states used by the closed theorems
and witnesses below. -/

def acc1 : Address := ⟨List.replicate 20 1⟩
def acc2 : Address := ⟨List.replicate 20 2⟩
def acc3 : Address := ⟨List.replicate 20 3⟩

def tok1 : Hash := ⟨List.replicate 32 7⟩

def asset1 : Asset := { id := tok1, name := "tok", supply := 1000, issuer := acc1 }

/-- The parsed value of `SUDT_CODE_HASH`. -/
def sudtHash : Hash :=
  ⟨[87, 221, 0, 103, 129, 77, 171, 53, 110, 5, 198, 222, 240, 208, 148, 187,
    121, 119, 103, 17, 230, 143, 253, 250, 210, 223, 106, 127, 135, 127, 125, 182]⟩

/-- A state with `tok1` registered and issuer `acc1` holding 1000. -/
def stLedger : ChainState :=
  { assets := [(tok1, asset1)],
    accountValues := [((acc1, tok1), { value := 1000, allowance := [] })],
    nativeAssetId := none, headers := [], effectedProofs := [], nonce := 0 }

/-- A state where `acc2` holds no `tok1` balance but has granted `acc1`
an allowance of 10. -/
def stAllowanceNoBalance : ChainState :=
  { assets := [(tok1, asset1)],
    accountValues := [((acc2, tok1), { value := 0, allowance := [(acc1, 10)] })],
    nativeAssetId := none, headers := [], effectedProofs := [], nonce := 0 }

/-- A state where `acc1` holds 1000 `tok1` and has granted `acc2` an
allowance of 50. -/
def stWithAllowance : ChainState :=
  { assets := [(tok1, asset1)],
    accountValues := [((acc1, tok1), { value := 1000, allowance := [(acc2, 50)] })],
    nativeAssetId := none, headers := [], effectedProofs := [], nonce := 0 }

/-- A state where crediting `acc2` one more `tok1` unit overflows u128. -/
def stOverflow : ChainState :=
  { assets := [(tok1, asset1)],
    accountValues := [((acc1, tok1), { value := 1, allowance := [] }),
                      ((acc2, tok1), { value := U128_MOD - 1, allowance := [] })],
    nativeAssetId := none, headers := [], effectedProofs := [], nonce := 0 }

/-- The bridge token of the deposit fixtures: the 32-zero-byte id, as a
registered asset. -/
def tokCross : Hash := ⟨List.replicate 32 0⟩

def assetCross : Asset := { id := tokCross, name := "wtok", supply := 0, issuer := acc3 }

/-- A state with the bridge token registered and no balances. -/
def stBridge : ChainState :=
  { assets := [(tokCross, assetCross)],
    accountValues := [],
    nativeAssetId := none, headers := [], effectedProofs := [], nonce := 0 }

/-- Like `stBridge`, but the deposit receiver `acc2` already holds
`2^128 - 1` units of the bridge token, so crediting the net amount
overflows u128. -/
def stBridgeOverflow : ChainState :=
  { assets := [(tokCross, assetCross)],
    accountValues := [((acc2, tokCross), { value := U128_MOD - 1, allowance := [] })],
    nativeAssetId := none, headers := [], effectedProofs := [], nonce := 0 }

/-- The type script of the deposit fixture: the SUDT code hash with the
token id as its argument. -/
def depositScript : Script :=
  { code_hash := sudtHash, hash_type := ScriptHashType.Type,
    args := "0x0000000000000000000000000000000000000000000000000000000000000000" }

/-- The single output of the deposit fixture, carrying the SUDT type
script. -/
def depositOutput : CellOutput :=
  { capacity := "0x0",
    lock := { code_hash := tokCross, hash_type := ScriptHashType.data, args := "0x" },
    type_ := some depositScript }

/-- The auxiliary data of the deposit fixture: 10000 units,
little-endian. -/
def depositDataHex : Hex := "0x10270000000000000000000000000000"

/-- The 16 decoded bytes of `depositDataHex`. -/
def depositAmountBytes : List Nat := [16, 39, 0, 0, 0, 0, 0, 0, 0, 0, 0, 0, 0, 0, 0, 0]

/-- The witness of the deposit fixture: the hex of `acc2`. -/
def depositWitnessHex : Hex := "0x0202020202020202020202020202020202020202"

/-- A well-formed deposit transaction: one output carrying the SUDT type
script, 10000 units little-endian in `outputs_data[0]`, receiver `acc2`
in the witness. -/
def depositTx : CkbTx :=
  { version := "0x0",
    cell_deps := [], header_deps := [], inputs := [],
    outputs := [depositOutput],
    outputs_data := [depositDataHex],
    witnesses := [depositWitnessHex] }

def depositMsg : CkbMessage := { tx := depositTx, proof := [] }

/-- A deposit transaction with an empty `outputs` list. -/
def emptyOutputsTx : CkbTx :=
  { version := "0x0", cell_deps := [], header_deps := [], inputs := [],
    outputs := [], outputs_data := [], witnesses := ["0x00"] }

/-- A deposit transaction whose first `outputs_data` entry decodes to
only 2 bytes — fewer than the 16 `read_u128` requires. -/
def shortDataTx : CkbTx :=
  { depositTx with outputs_data := ["0x1027"] }

/-- The raw extra bytes carrying the ASCII hex text of `acc2`. -/
def extraBytesAcc2 : List Nat :=
  "0x0202020202020202020202020202020202020202".data.map Char.toNat

/-- A header whose numeric fields all parse, with distinct `epoch` (5)
and `nonce` (7) fields. -/
def header57 : CkbHeader :=
  { compact_target := "0x1a2b3c4d", version := "0x0", timestamp := "0x16e5ab3c0a2",
    number := "0x1", epoch := "0x5",
    parent_hash := tokCross, transactions_root := tokCross,
    proposals_hash := tokCross, uncles_hash := tokCross, dao := tokCross,
    nonce := "0x7" }

/-- The same header with a malformed `nonce` hex field. -/
def headerBadNonce : CkbHeader := { header57 with nonce := "0xzz" }

/-- The asset used by the codec round-trip theorem: zero id and issuer
bytes, supply 0. -/
def assetRT : Asset :=
  { id := ⟨List.replicate 32 0⟩, name := "x", supply := 0, issuer := ⟨List.replicate 20 0⟩ }

/-- Abbreviation for the post-state of a registered-token mint: the
receiver's record with its `value` increased by `amt` (used to state
lemmas about `mint_token`). -/
def creditPost (s : ChainState) (u : Address) (X : Hash) (amt : Nat) : ChainState :=
  let rb := (alGet s.accountValues (u, X)).getD { value := 0, allowance := [] }
  { s with accountValues :=
      alInsert s.accountValues (u, X) { rb with value := balOf s u X + amt } }

/-- A computation that never changes the persisted withdrawal nonce. -/
def NoncePreserving {α : Type} (m : M α) : Prop :=
  ∀ s ev, ((m s ev).2.1).nonce = s.nonce

/-- A computation that never emits events. -/
def EventsUntouched {α : Type} (m : M α) : Prop :=
  ∀ s ev, ((m s ev).2.2) = ev

/-! ## Theorems -/

/-! ### Running the monad: unfolding lemmas -/

@[simp] theorem bind_run {α β : Type} (x : M α) (f : α → M β) (s : ChainState)
    (ev : List Event) :
    (x >>= f) s ev =
      (match x s ev with
       | (Outcome.ok a, s', ev') => f a s' ev'
       | (Outcome.err e, s', ev') => (Outcome.err e, s', ev')
       | (Outcome.panicked m, s', ev') => (Outcome.panicked m, s', ev')) := rfl

@[simp] theorem pure_run {α : Type} (a : α) (s : ChainState) (ev : List Event) :
    (Pure.pure a : M α) s ev = (Outcome.ok a, s, ev) := rfl

@[simp] theorem M_pure_run {α : Type} (a : α) (s : ChainState) (ev : List Event) :
    M.pure a s ev = (Outcome.ok a, s, ev) := rfl

@[simp] theorem throwE_run {α : Type} (e : ServiceError) (s : ChainState) (ev : List Event) :
    (throwE e : M α) s ev = (Outcome.err e, s, ev) := rfl

@[simp] theorem panicked_run {α : Type} (m : String) (s : ChainState) (ev : List Event) :
    (panicked m : M α) s ev = (Outcome.panicked m, s, ev) := rfl

@[simp] theorem getState_run (s : ChainState) (ev : List Event) :
    getState s ev = (Outcome.ok s, s, ev) := rfl

@[simp] theorem modifyState_run (f : ChainState → ChainState) (s : ChainState)
    (ev : List Event) : modifyState f s ev = (Outcome.ok (), f s, ev) := rfl

@[simp] theorem emitEvent_run (e : Event) (s : ChainState) (ev : List Event) :
    emitEvent e s ev = (Outcome.ok (), s, ev ++ [e]) := rfl

@[simp] theorem liftExcept_ok_run {α : Type} (a : α) (s : ChainState) (ev : List Event) :
    liftExcept (Except.ok a) s ev = (Outcome.ok a, s, ev) := rfl

@[simp] theorem liftExcept_error_run {α : Type} (e : ServiceError) (s : ChainState)
    (ev : List Event) : (liftExcept (Except.error e) : M α) s ev = (Outcome.err e, s, ev) := rfl

/-- Applying a state to an `if` of computations selects the branch
first. -/
@[simp] theorem ite_run {α : Type} (c : Prop) [Decidable c] (m1 m2 : M α) (s : ChainState)
    (ev : List Event) :
    (if c then m1 else m2) s ev = if c then m1 s ev else m2 s ev := by
  split <;> rfl

/-! ### Store lemmas -/

theorem alGet_insert_self {κ ν : Type} [DecidableEq κ] (m : List (κ × ν)) (k : κ) (v : ν) :
    alGet (alInsert m k v) k = some v := by
  induction m with
  | nil => simp [alInsert, alGet]
  | cons kv rest ih =>
    obtain ⟨k', v'⟩ := kv
    by_cases h : k = k' <;> simp [alInsert, alGet, h, ih]

theorem alGet_insert_ne {κ ν : Type} [DecidableEq κ] (m : List (κ × ν)) (k k' : κ) (v : ν)
    (h : k' ≠ k) : alGet (alInsert m k v) k' = alGet m k' := by
  induction m with
  | nil => simp [alInsert, alGet, h]
  | cons kv rest ih =>
    obtain ⟨k1, v1⟩ := kv
    by_cases h1 : k = k1
    · subst h1
      simp [alInsert, alGet, h]
    · by_cases h2 : k' = k1 <;> simp [alInsert, alGet, h1, h2, ih]

theorem btGet_btSet_self (m : List (Address × Nat)) (k : Address) (v : Nat) :
    btGet (btSet m k v) k = some v := by
  induction m with
  | nil => simp [btSet, btGet, alGet]
  | cons kv rest ih =>
    obtain ⟨k1, v1⟩ := kv
    by_cases h : k = k1
    · simp [btSet, btGet, alGet, h]
    · by_cases h2 : Address.lt k k1 <;> simp [btSet, btGet, alGet, h, h2] <;> exact ih

theorem btGet_btSet_ne (m : List (Address × Nat)) (k k' : Address) (v : Nat)
    (h : k' ≠ k) : btGet (btSet m k v) k' = btGet m k' := by
  induction m with
  | nil => simp [btSet, btGet, alGet, h]
  | cons kv rest ih =>
    obtain ⟨k1, v1⟩ := kv
    by_cases h1 : k = k1
    · subst h1
      simp [btSet, btGet, alGet, h]
    · have h1' : k1 ≠ k := fun hh => h1 hh.symm
      by_cases h2 : Address.lt k k1 <;> by_cases h3 : k' = k1 <;>
          simp [btSet, btGet, alGet, h, h1, h1', h2, h3] <;> exact ih

/-- The balance observer as the `value` of the defaulted record read. -/
theorem balOf_eq_getD (s : ChainState) (u : Address) (X : Hash) :
    ((alGet s.accountValues (u, X)).getD { value := 0, allowance := [] }).value
      = balOf s u X := by
  unfold balOf
  cases alGet s.accountValues (u, X) <;> rfl

/-- `value` of a defaulted optional record, in observer form. -/
theorem value_of_getD (o : Option AssetBalance) :
    (o.getD { value := 0, allowance := [] }).value = (o.map AssetBalance.value).getD 0 := by
  cases o <;> rfl

/-- The allowance observer as the defaulted map read of the defaulted
record read. -/
theorem allowanceOf_eq_getD (s : ChainState) (u g : Address) (X : Hash) :
    (btGet ((alGet s.accountValues (u, X)).getD { value := 0, allowance := [] }).allowance
        g).getD 0 = allowanceOf s u g X := by
  unfold allowanceOf
  cases alGet s.accountValues (u, X) <;> rfl

/-- **C1**: refuted as stated. `transfer_from` persists the allowance
decrement before `_transfer` runs its own checks, so a call that fails
with `LackOfBalance` (allowance 10 ≥ 5 but balance 0 < 5) returns an
error *and* leaves the owner's allowance decremented from 10 to 5 — the
post-state differs from the pre-state. -/
theorem c1_transfer_from_error_leaves_side_effects :
    (run (transfer_from ⟨acc1, none⟩ ⟨tok1, acc2, acc3, 5⟩) stAllowanceNoBalance).1
        = Outcome.err (ServiceError.LackOfBalance 5 0) ∧
    allowanceOf stAllowanceNoBalance acc2 acc1 tok1 = 10 ∧
    allowanceOf
        (run (transfer_from ⟨acc1, none⟩ ⟨tok1, acc2, acc3, 5⟩) stAllowanceNoBalance).2.1
        acc2 acc1 tok1 = 5 ∧
    (run (transfer_from ⟨acc1, none⟩ ⟨tok1, acc2, acc3, 5⟩) stAllowanceNoBalance).2.1
        ≠ stAllowanceNoBalance := by
  refine ⟨rfl, rfl, rfl, ?_⟩
  decide

/-- **C2**: refuted; the code double-mints. The `effected_proofs` store
is never consulted, so resubmitting the same valid 10000-unit deposit
message succeeds again: the receiver's balance doubles from 9900 to
19800 and the relayer's fee doubles from 100 to 200. -/
theorem c2_double_mint :
    (run (submit_messages ⟨acc1, none⟩ ⟨100, [depositMsg]⟩) stBridge).1 = Outcome.ok () ∧
    balOf (run (submit_messages ⟨acc1, none⟩ ⟨100, [depositMsg]⟩) stBridge).2.1
        acc2 tokCross = 9900 ∧
    (run (submit_messages ⟨acc1, none⟩ ⟨100, [depositMsg]⟩)
        (run (submit_messages ⟨acc1, none⟩ ⟨100, [depositMsg]⟩) stBridge).2.1).1
        = Outcome.ok () ∧
    balOf (run (submit_messages ⟨acc1, none⟩ ⟨100, [depositMsg]⟩)
        (run (submit_messages ⟨acc1, none⟩ ⟨100, [depositMsg]⟩) stBridge).2.1).2.1
        acc2 tokCross = 19800 ∧
    balOf (run (submit_messages ⟨acc1, none⟩ ⟨100, [depositMsg]⟩)
        (run (submit_messages ⟨acc1, none⟩ ⟨100, [depositMsg]⟩) stBridge).2.1).2.1
        acc1 tokCross = 200 := by
  refine ⟨by decide, by decide, by decide, by decide, by decide⟩

/-- **C7**: refuted for the nonce field. `CkbHeaderInner::from` parses
`h.epoch` into the `nonce` field: a header with `epoch = 0x5` and
`nonce = 0x7` is accepted and stored with nonce 5, although its `nonce`
hex field parses to 7; and a header whose `nonce` field is malformed hex
(`0xzz`) is still accepted. -/
theorem c7_nonce_parsed_from_epoch :
    (run (update_headers ⟨acc1, none⟩ ⟨[header57]⟩) stBridge).1 = Outcome.ok () ∧
    (alGet (run (update_headers ⟨acc1, none⟩ ⟨[header57]⟩) stBridge).2.1.headers 1).map
        CkbHeaderInner.nonce = some 5 ∧
    fromStrRadix16 U128_MOD (Hex.as_string_trim0x header57.nonce) = some 7 ∧
    (run (update_headers ⟨acc1, none⟩ ⟨[headerBadNonce]⟩) stBridge).1 = Outcome.ok () :=
  ⟨rfl, rfl, rfl, rfl⟩

/-- **C8**: refuted. The decoder reads the 128-bit fields from
`at(i)?.as_raw()`, the raw slice *including* its RLP length header
(`0x90`), so decode ∘ encode corrupts the amount: an `Asset` with
supply 0 decodes back with supply 144 (= `0x90`). -/
theorem c8_decode_encode_corrupts_supply :
    Asset.decode_fixed (Asset.encode_fixed assetRT) = some { assetRT with supply := 144 } ∧
    assetRT.supply = 0 :=
  ⟨by decide, rfl⟩

/-- **C9**: refuted. `submit_messages` panics rather than returning a
structured error on a transaction with an empty `outputs` list
(`check_tx` indexes `outputs[0]`) and on a first `outputs_data` entry
that decodes to fewer than 16 bytes (`LittleEndian::read_u128`
asserts). -/
theorem c9_submit_messages_panics :
    (run (submit_messages ⟨acc1, none⟩ ⟨100, [⟨emptyOutputsTx, []⟩]⟩) stBridge).1
        = Outcome.panicked "index out of bounds: the len is 0 but the index is 0" ∧
    (run (submit_messages ⟨acc1, none⟩ ⟨100, [⟨shortDataTx, []⟩]⟩) stBridge).1
        = Outcome.panicked "byteorder: slice shorter than a u128" :=
  ⟨rfl, by decide⟩

/-! ### `_transfer` characterization -/

/-- Full behaviour of the private `_transfer` on an arbitrary state. -/
theorem _transfer_eq (a b : Address) (X : Hash) (v : Nat) (s : ChainState) (ev : List Event) :
    _transfer a b X v s ev =
      (if a = b then (Outcome.err ServiceError.RecipientIsSender, s, ev)
       else
        let sab := (alGet s.accountValues (a, X)).getD { value := 0, allowance := [] }
        if sab.value < v then (Outcome.err (ServiceError.LackOfBalance v sab.value), s, ev)
        else
          let tab := (alGet s.accountValues (b, X)).getD { value := 0, allowance := [] }
          if tab.value + v ≥ U128_MOD then (Outcome.err ServiceError.U128Overflow, s, ev)
          else
            let tab' : AssetBalance := { tab with value := tab.value + v }
            let sab' : AssetBalance := { sab with value := sab.value - v }
            (Outcome.ok (),
             { s with accountValues :=
                 alInsert (alInsert s.accountValues (b, X) tab') (a, X) sab' }, ev)) := by
  by_cases hab : a = b
  · simp [_transfer, hab, throwE]
  · simp only [_transfer, Bind.bind, M.bind, Pure.pure, M.pure, sdkGetAccountValueD,
      sdkGetAccountValue, sdkSetAccountValue, getState, modifyState, throwE, hab,
      if_false, ite_false]
    by_cases h1 :
        ((alGet s.accountValues (a, X)).getD { value := 0, allowance := [] }).value < v
    · simp [h1, throwE, M.bind, M.pure, getState, modifyState]
    · by_cases h2 : U128_MOD ≤
          ((alGet s.accountValues (b, X)).getD { value := 0, allowance := [] }).value + v
      · simp [h1, h2, throwE, M.bind, M.pure, getState, modifyState]
      · simp [h1, h2, throwE, M.bind, M.pure, getState, modifyState]

/-- **C3** (counterexample): the claim as stated fails. With the asset
registered, `balance(acc1) = 1 ≥ 1 = v` and `acc1 ≠ acc2`, but
`balance(acc2) = 2^128 - 1`, the call does *not* succeed: crediting the
recipient overflows u128 and the call fails with `U128Overflow`. -/
theorem c3_counterexample :
    alContains stOverflow.assets tok1 = true ∧
    1 ≤ balOf stOverflow acc1 tok1 ∧
    acc1 ≠ acc2 ∧
    (run (transfer ⟨acc1, none⟩ ⟨tok1, acc2, 1⟩) stOverflow).1
        = Outcome.err ServiceError.U128Overflow := by
  exact ⟨by decide, by decide, by decide, by decide⟩

/-- Success specification of `transfer` without an extra payload: shared
between the transfer and delegated-transfer theorems. -/
theorem transfer_ok_spec (s : ChainState) (a b : Address) (X : Hash) (v : Nat)
    (hX : alContains s.assets X = true) (hab : a ≠ b)
    (hbal : v ≤ balOf s a X) (hover : balOf s b X + v < U128_MOD) :
    (run (transfer ⟨a, none⟩ ⟨X, b, v⟩) s).1 = Outcome.ok () ∧
    balOf (run (transfer ⟨a, none⟩ ⟨X, b, v⟩) s).2.1 a X = balOf s a X - v ∧
    balOf (run (transfer ⟨a, none⟩ ⟨X, b, v⟩) s).2.1 b X = balOf s b X + v ∧
    balOf (run (transfer ⟨a, none⟩ ⟨X, b, v⟩) s).2.1 a X
        + balOf (run (transfer ⟨a, none⟩ ⟨X, b, v⟩) s).2.1 b X
        = balOf s a X + balOf s b X := by
  have hba : b ≠ a := hab.symm
  have hpair : ((b, X) : Address × Hash) ≠ (a, X) := by
    simp [Prod.ext_iff, hba]
  have hbal' :
      ¬ (((alGet s.accountValues (a, X)).getD { value := 0, allowance := [] }).value < v) := by
    rw [balOf_eq_getD]
    omega
  have hover' : ¬ (U128_MOD ≤
      ((alGet s.accountValues (b, X)).getD { value := 0, allowance := [] }).value + v) := by
    rw [balOf_eq_getD]
    omega
  simp only [run, transfer, Bind.bind, M.bind, M.pure, Pure.pure, assetsContains, getState,
    emitEvent, throwE, hX, Bool.not_true, not_true, if_false, ite_false, Bool.false_eq_true]
  rw [_transfer_eq]
  simp only [if_neg hab, hbal', ite_false, hover', if_false]
  refine ⟨trivial, ?_, ?_, ?_⟩
  · unfold balOf
    rw [alGet_insert_self]
    simp [value_of_getD]
  · unfold balOf
    rw [alGet_insert_ne _ _ _ _ hpair, alGet_insert_self]
    simp [value_of_getD]
  · unfold balOf at hbal ⊢
    rw [alGet_insert_self, alGet_insert_ne _ _ _ _ hpair, alGet_insert_self]
    simp only [Option.map_some', Option.getD_some]
    simp only [value_of_getD]
    omega

/-- **C3** (amended): for every `transfer(a, b, asset, v)` where the
asset is registered, `balance(a) ≥ v`, `a ≠ b` **and crediting `b` does
not overflow u128**: the call succeeds, `balance(a)` decreases by
exactly `v`, `balance(b)` increases by exactly `v`, and their sum is
unchanged. -/
theorem c3_transfer_moves_value (s : ChainState) (a b : Address) (X : Hash) (v : Nat)
    (hX : alContains s.assets X = true) (hab : a ≠ b)
    (hbal : v ≤ balOf s a X) (hover : balOf s b X + v < U128_MOD) :
    (run (transfer ⟨a, none⟩ ⟨X, b, v⟩) s).1 = Outcome.ok () ∧
    balOf (run (transfer ⟨a, none⟩ ⟨X, b, v⟩) s).2.1 a X = balOf s a X - v ∧
    balOf (run (transfer ⟨a, none⟩ ⟨X, b, v⟩) s).2.1 b X = balOf s b X + v ∧
    balOf (run (transfer ⟨a, none⟩ ⟨X, b, v⟩) s).2.1 a X
        + balOf (run (transfer ⟨a, none⟩ ⟨X, b, v⟩) s).2.1 b X
        = balOf s a X + balOf s b X :=
  transfer_ok_spec s a b X v hX hab hbal hover

/-- Witness for C3 (amended): on `stLedger`, `transfer(acc1, acc2, tok1, 300)`
succeeds and moves 300 units (1000/0 → 700/300). -/
theorem c3_transfer_moves_value_witness :
    alContains stLedger.assets tok1 = true ∧ acc1 ≠ acc2 ∧
    300 ≤ balOf stLedger acc1 tok1 ∧ balOf stLedger acc2 tok1 + 300 < U128_MOD ∧
    ((run (transfer ⟨acc1, none⟩ ⟨tok1, acc2, 300⟩) stLedger).1 = Outcome.ok () ∧
     balOf (run (transfer ⟨acc1, none⟩ ⟨tok1, acc2, 300⟩) stLedger).2.1 acc1 tok1
        = balOf stLedger acc1 tok1 - 300 ∧
     balOf (run (transfer ⟨acc1, none⟩ ⟨tok1, acc2, 300⟩) stLedger).2.1 acc2 tok1
        = balOf stLedger acc2 tok1 + 300 ∧
     balOf (run (transfer ⟨acc1, none⟩ ⟨tok1, acc2, 300⟩) stLedger).2.1 acc1 tok1
        + balOf (run (transfer ⟨acc1, none⟩ ⟨tok1, acc2, 300⟩) stLedger).2.1 acc2 tok1
        = balOf stLedger acc1 tok1 + balOf stLedger acc2 tok1) :=
  ⟨by decide, by decide, by decide, by decide,
   c3_transfer_moves_value stLedger acc1 acc2 tok1 300
     (by decide) (by decide) (by decide) (by decide)⟩

/-- Full behaviour of `transfer_from` (no extra payload) on an arbitrary
state, with the inner `_transfer` conditions expressed against the
pre-state. Error branches after the allowance write return the state
`s₁` that already carries the persisted allowance decrement. -/
theorem transfer_from_eq (c ow rc : Address) (X : Hash) (v : Nat)
    (s : ChainState) (ev : List Event) :
    transfer_from ⟨c, none⟩ ⟨X, ow, rc, v⟩ s ev =
      (if ¬ (alContains s.assets X = true) then
        (Outcome.err (ServiceError.NotFoundAsset X), s, ev)
       else
        let sab := (alGet s.accountValues (ow, X)).getD { value := 0, allowance := [] }
        let sal := (btGet sab.allowance c).getD 0
        if sal < v then (Outcome.err (ServiceError.LackOfBalance v sal), s, ev)
        else
          let sabA : AssetBalance := { sab with allowance := btSet sab.allowance c (sal - v) }
          let s1 : ChainState :=
            { s with accountValues := alInsert s.accountValues (ow, X) sabA }
          if ow = rc then (Outcome.err ServiceError.RecipientIsSender, s1, ev)
          else if sab.value < v then
            (Outcome.err (ServiceError.LackOfBalance v sab.value), s1, ev)
          else
            let tab := (alGet s.accountValues (rc, X)).getD { value := 0, allowance := [] }
            if U128_MOD ≤ tab.value + v then (Outcome.err ServiceError.U128Overflow, s1, ev)
            else
              let tabA : AssetBalance := { tab with value := tab.value + v }
              let sabB : AssetBalance :=
                { value := sab.value - v, allowance := btSet sab.allowance c (sal - v) }
              let e : TransferFromEvent :=
                { asset_id := X, caller := c, sender := ow, recipient := rc, value := v }
              let avB : List ((Address × Hash) × AssetBalance) :=
                alInsert (alInsert (alInsert s.accountValues (ow, X) sabA) (rc, X) tabA)
                  (ow, X) sabB
              (Outcome.ok (), { s with accountValues := avB },
               ev ++ [Event.transferFrom e])) := by
  simp only [transfer_from, sdkGetAccountValueD, sdkGetAccountValue, sdkSetAccountValue,
    assetsContains, bind_run, getState_run, M_pure_run, pure_run, throwE_run,
    modifyState_run, emitEvent_run, ite_run]
  by_cases hX : alContains s.assets X = true
  · simp only [hX, not_true, ite_false, if_false, Bool.false_eq_true]
    by_cases hal :
        (btGet ((alGet s.accountValues (ow, X)).getD { value := 0, allowance := [] }).allowance
          c).getD 0 < v
    · simp [hal]
    · simp only [hal, ite_false, if_false]
      rw [_transfer_eq]
      by_cases hor : ow = rc
      · simp [hor]
      · have hpair : ((rc, X) : Address × Hash) ≠ (ow, X) := by
          simp only [ne_eq, Prod.mk.injEq, not_and]
          exact fun hh _ => hor hh.symm
        by_cases hbal :
            ((alGet s.accountValues (ow, X)).getD { value := 0, allowance := [] }).value < v
        · simp [hor, hbal, alGet_insert_self]
        · by_cases hov : U128_MOD ≤
              ((alGet s.accountValues (rc, X)).getD { value := 0, allowance := [] }).value + v
          · simp [hor, hbal, hov, alGet_insert_self, alGet_insert_ne _ _ _ _ hpair]
          · simp [hor, hbal, hov, alGet_insert_self, alGet_insert_ne _ _ _ _ hpair]
  · simp [hX]

/-- **C4**: a successful
`transfer_from(asset, spender, owner, to, v)` (spender calling, no extra
payload) implies the pre-allowance was at least `v`; the post-allowance
is exactly the pre-allowance minus `v` (never negative, as the
subtraction never truncates); a plain `transfer(owner, to, v)` on the
same pre-state also succeeds; and the post-balances of `owner` and `to`
match those of that transfer. -/
theorem c4_transfer_from_spec (s : ChainState) (spender owner recv : Address)
    (X : Hash) (v : Nat)
    (hok : (run (transfer_from ⟨spender, none⟩ ⟨X, owner, recv, v⟩) s).1 = Outcome.ok ()) :
    v ≤ allowanceOf s owner spender X ∧
    allowanceOf (run (transfer_from ⟨spender, none⟩ ⟨X, owner, recv, v⟩) s).2.1
        owner spender X = allowanceOf s owner spender X - v ∧
    (run (transfer ⟨owner, none⟩ ⟨X, recv, v⟩) s).1 = Outcome.ok () ∧
    balOf (run (transfer_from ⟨spender, none⟩ ⟨X, owner, recv, v⟩) s).2.1 owner X
        = balOf (run (transfer ⟨owner, none⟩ ⟨X, recv, v⟩) s).2.1 owner X ∧
    balOf (run (transfer_from ⟨spender, none⟩ ⟨X, owner, recv, v⟩) s).2.1 recv X
        = balOf (run (transfer ⟨owner, none⟩ ⟨X, recv, v⟩) s).2.1 recv X := by
  unfold run at hok ⊢
  rw [transfer_from_eq] at hok ⊢
  by_cases hX : alContains s.assets X = true
  case neg => simp [hX] at hok
  simp only [hX, not_true, ite_false, if_false, Bool.false_eq_true] at hok ⊢
  by_cases hal : (btGet ((alGet s.accountValues (owner, X)).getD
      { value := 0, allowance := [] }).allowance spender).getD 0 < v
  case pos => simp [hal] at hok
  simp only [hal, ite_false, if_false] at hok ⊢
  by_cases hor : owner = recv
  case pos => simp [hor] at hok
  simp only [hor, ite_false, if_false] at hok ⊢
  by_cases hbal : ((alGet s.accountValues (owner, X)).getD
      { value := 0, allowance := [] }).value < v
  case pos => simp [hbal] at hok
  simp only [hbal, ite_false, if_false] at hok ⊢
  by_cases hov : U128_MOD ≤ ((alGet s.accountValues (recv, X)).getD
      { value := 0, allowance := [] }).value + v
  case pos => simp [hov] at hok
  simp only [hov, ite_false, if_false] at hok ⊢
  have hpair : ((recv, X) : Address × Hash) ≠ (owner, X) := by
    simp only [ne_eq, Prod.mk.injEq, not_and]
    exact fun hh _ => hor hh.symm
  have hbal2 : v ≤ balOf s owner X := by
    rw [← balOf_eq_getD]
    omega
  have hov2 : balOf s recv X + v < U128_MOD := by
    rw [← balOf_eq_getD]
    omega
  have ht := transfer_ok_spec s owner recv X v hX hor hbal2 hov2
  simp only [run] at ht
  refine ⟨?_, ?_, ht.1, ?_, ?_⟩
  · rw [← allowanceOf_eq_getD]
    omega
  · unfold allowanceOf
    simp only [alGet_insert_self, btGet_btSet_self, Option.getD_some]
    rw [allowanceOf_eq_getD]
    rfl
  · rw [ht.2.1]
    unfold balOf
    simp only [alGet_insert_self, Option.map_some', Option.getD_some]
    rw [value_of_getD]
  · rw [ht.2.2.1]
    unfold balOf
    simp only [alGet_insert_ne _ _ _ _ hpair, alGet_insert_self, Option.map_some',
      Option.getD_some]
    rw [value_of_getD]

/-- Witness for C4: on a state where `acc1` holds 1000 `tok1` and has
granted `acc2` an allowance of 50, `transferFrom(tok1, acc2, acc1, acc3, 40)`
succeeds; the theorem then yields the allowance decrement 50 → 10 and
the balance agreement with `transfer(acc1, acc3, 40)`. -/
theorem c4_transfer_from_spec_witness :
    (run (transfer_from ⟨acc2, none⟩ ⟨tok1, acc1, acc3, 40⟩) stWithAllowance).1
        = Outcome.ok () ∧
    (40 ≤ allowanceOf stWithAllowance acc1 acc2 tok1 ∧
     allowanceOf (run (transfer_from ⟨acc2, none⟩ ⟨tok1, acc1, acc3, 40⟩)
         stWithAllowance).2.1 acc1 acc2 tok1
        = allowanceOf stWithAllowance acc1 acc2 tok1 - 40 ∧
     (run (transfer ⟨acc1, none⟩ ⟨tok1, acc3, 40⟩) stWithAllowance).1 = Outcome.ok () ∧
     balOf (run (transfer_from ⟨acc2, none⟩ ⟨tok1, acc1, acc3, 40⟩)
         stWithAllowance).2.1 acc1 tok1
        = balOf (run (transfer ⟨acc1, none⟩ ⟨tok1, acc3, 40⟩) stWithAllowance).2.1 acc1 tok1 ∧
     balOf (run (transfer_from ⟨acc2, none⟩ ⟨tok1, acc1, acc3, 40⟩)
         stWithAllowance).2.1 acc3 tok1
        = balOf (run (transfer ⟨acc1, none⟩ ⟨tok1, acc3, 40⟩) stWithAllowance).2.1 acc3 tok1) :=
  ⟨by decide, c4_transfer_from_spec stWithAllowance acc2 acc1 acc3 tok1 40 (by decide)⟩

/-! ### Nonce preservation -/

/-- A run-level `liftExcept` unfolding usable under `split`. -/
@[simp] theorem liftExcept_run {α : Type} (x : Except ServiceError α) (s : ChainState)
    (ev : List Event) :
    liftExcept x s ev =
      (match x with
       | Except.ok a => (Outcome.ok a, s, ev)
       | Except.error e => (Outcome.err e, s, ev)) := by
  cases x <;> rfl

/-- Binding two nonce-preserving computations preserves the nonce. -/
theorem nonce_bind_pres {α β : Type} (x : M α) (f : α → M β)
    (hx : ∀ s ev, ((x s ev).2.1).nonce = s.nonce)
    (hf : ∀ a s ev, ((f a s ev).2.1).nonce = s.nonce) :
    ∀ s ev, (((x >>= f) s ev).2.1).nonce = s.nonce := by
  intro s ev
  rw [bind_run]
  rcases hx2 : x s ev with ⟨o, s1, ev1⟩
  have hs1 : s1.nonce = s.nonce := by
    have := hx s ev
    rw [hx2] at this
    exact this
  cases o with
  | ok a => simpa [hs1] using (hf a s1 ev1).trans hs1
  | err e => simpa using hs1
  | panicked m => simpa using hs1

theorem mint_token_nonce (ctx : ServiceContext) (p : MintTokenPayload) (s : ChainState)
    (ev : List Event) : (((mint_token ctx p) s ev).2.1).nonce = s.nonce := by
  cases hfa : Address.from_hex sentinelIssuerHex with
  | ok a =>
    simp only [mint_token, assetsContains, sdkGetAccountValueD, sdkGetAccountValue,
      sdkSetAccountValue, assetsInsert, bind_run, getState_run, M_pure_run, pure_run,
      throwE_run, modifyState_run, emitEvent_run, liftExcept_run, ite_run, hfa]
    repeat' split
    all_goals rfl
  | error e =>
    simp only [mint_token, assetsContains, sdkGetAccountValueD, sdkGetAccountValue,
      sdkSetAccountValue, assetsInsert, bind_run, getState_run, M_pure_run, pure_run,
      throwE_run, modifyState_run, emitEvent_run, liftExcept_run, ite_run, hfa]
    repeat' split
    all_goals rfl

theorem burn_token_nonce (ctx : ServiceContext) (p : BurnTokenPayload) (s : ChainState)
    (ev : List Event) : (((burn_token ctx p) s ev).2.1).nonce = s.nonce := by
  simp only [burn_token, assetsContains, sdkGetAccountValueD, sdkGetAccountValue,
    sdkSetAccountValue, bind_run, getState_run, M_pure_run, pure_run, throwE_run,
    modifyState_run, ite_run]
  repeat' split
  all_goals rfl

theorem burn_token_events (ctx : ServiceContext) (p : BurnTokenPayload) (s : ChainState)
    (ev : List Event) : (((burn_token ctx p) s ev).2.2) = ev := by
  simp only [burn_token, assetsContains, sdkGetAccountValueD, sdkGetAccountValue,
    sdkSetAccountValue, bind_run, getState_run, M_pure_run, pure_run, throwE_run,
    modifyState_run, ite_run]
  repeat' split
  all_goals rfl

theorem create_asset_nonce (ctx : ServiceContext) (p : CreateAssetPayload) (s : ChainState)
    (ev : List Event) : (((create_asset ctx p) s ev).2.1).nonce = s.nonce := by
  simp only [create_asset, assetsContains, assetsInsert, sdkSetAccountValue, bind_run,
    getState_run, M_pure_run, pure_run, throwE_run, modifyState_run, emitEvent_run, ite_run]
  repeat' split
  all_goals rfl

theorem extraToAddress_nonce (bs : List Nat) (s : ChainState) (ev : List Event) :
    (((extraToAddress bs) s ev).2.1).nonce = s.nonce := by
  simp only [extraToAddress, liftExcept_run, panicked_run, ite_run]
  repeat' split
  all_goals rfl

theorem _transfer_nonce (a b : Address) (X : Hash) (v : Nat) (s : ChainState)
    (ev : List Event) : (((_transfer a b X v) s ev).2.1).nonce = s.nonce := by
  rw [_transfer_eq]
  dsimp only
  repeat' split
  all_goals rfl

theorem transfer_nonce (ctx : ServiceContext) (p : TransferPayload) (s : ChainState)
    (ev : List Event) : (((transfer ctx p) s ev).2.1).nonce = s.nonce := by
  unfold transfer
  cases ctx.extra with
  | none =>
    refine nonce_bind_pres _ _ (fun s ev => rfl) ?_ s ev
    intro sender s ev
    refine nonce_bind_pres _ _ (fun s ev => rfl) ?_ s ev
    intro has s ev
    simp only [ite_run, throwE_run]
    split
    · rfl
    · exact nonce_bind_pres _ _ (fun s ev => _transfer_nonce _ _ _ _ s ev)
        (fun a s ev => rfl) s ev
  | some bs =>
    refine nonce_bind_pres _ _ (fun s ev => extraToAddress_nonce bs s ev) ?_ s ev
    intro sender s ev
    refine nonce_bind_pres _ _ (fun s ev => rfl) ?_ s ev
    intro has s ev
    simp only [ite_run, throwE_run]
    split
    · rfl
    · exact nonce_bind_pres _ _ (fun s ev => _transfer_nonce _ _ _ _ s ev)
        (fun a s ev => rfl) s ev

theorem approve_nonce (ctx : ServiceContext) (p : TransferPayload) (s : ChainState)
    (ev : List Event) : (((approve ctx p) s ev).2.1).nonce = s.nonce := by
  simp only [approve, assetsContains, sdkGetAccountValueD, sdkGetAccountValue,
    sdkSetAccountValue, bind_run, getState_run, M_pure_run, pure_run, throwE_run,
    modifyState_run, emitEvent_run, ite_run]
  repeat' split
  all_goals rfl

theorem transfer_from_body_nonce (caller : Address) (p : TransferFromPayload)
    (s : ChainState) (ev : List Event) :
    (((assetsContains p.asset_id >>= fun has =>
        if ¬ has then throwE (ServiceError.NotFoundAsset p.asset_id)
        else
          sdkGetAccountValueD p.sender p.asset_id >>= fun sender_asset_balance =>
            if (btGet sender_asset_balance.allowance caller).getD 0 < p.value then
              throwE (ServiceError.LackOfBalance p.value
                ((btGet sender_asset_balance.allowance caller).getD 0))
            else
              sdkSetAccountValue p.sender p.asset_id
                { sender_asset_balance with
                  allowance := btSet sender_asset_balance.allowance caller
                    ((btGet sender_asset_balance.allowance caller).getD 0 - p.value) } >>=
                fun _ =>
                  _transfer p.sender p.recipient p.asset_id p.value >>= fun _ =>
                    emitEvent (Event.transferFrom
                      { asset_id := p.asset_id, caller := caller, sender := p.sender,
                        recipient := p.recipient, value := p.value })) s ev).2.1).nonce
      = s.nonce := by
  refine nonce_bind_pres _ _ (fun s ev => rfl) ?_ s ev
  intro has s ev
  simp only [ite_run, throwE_run]
  split
  · rfl
  · refine nonce_bind_pres _ _ (fun s ev => rfl) ?_ s ev
    intro sab s ev
    simp only [ite_run, throwE_run]
    split
    · rfl
    · refine nonce_bind_pres _ _ (fun s ev => rfl) ?_ s ev
      intro x s ev
      exact nonce_bind_pres _ _ (fun s ev => _transfer_nonce _ _ _ _ s ev)
        (fun a s ev => rfl) s ev

theorem transfer_from_nonce (ctx : ServiceContext) (p : TransferFromPayload) (s : ChainState)
    (ev : List Event) : (((transfer_from ctx p) s ev).2.1).nonce = s.nonce := by
  unfold transfer_from
  cases ctx.extra with
  | none =>
    refine nonce_bind_pres _ _ (fun s ev => rfl) ?_ s ev
    intro caller s ev
    exact transfer_from_body_nonce caller p s ev
  | some bs =>
    refine nonce_bind_pres _ _ (fun s ev => extraToAddress_nonce bs s ev) ?_ s ev
    intro caller s ev
    exact transfer_from_body_nonce caller p s ev

theorem update_headers_loop_nonce (hs : List CkbHeader) :
    ∀ s ev, (((update_headers_loop hs) s ev).2.1).nonce = s.nonce := by
  induction hs with
  | nil =>
    intro s ev
    rfl
  | cons h rest ih =>
    intro s ev
    simp only [update_headers_loop]
    cases CkbHeaderInner.from h with
    | none =>
      exact nonce_bind_pres _ _ (fun s ev => rfl) (fun a s ev => ih s ev) s ev
    | some inner_header =>
      exact nonce_bind_pres _ _ (fun s ev => rfl) (fun a s ev => ih s ev) s ev

theorem update_headers_nonce (ctx : ServiceContext) (p : UpdateHeadersPayload)
    (s : ChainState) (ev : List Event) :
    (((update_headers ctx p) s ev).2.1).nonce = s.nonce :=
  update_headers_loop_nonce p.headers s ev

theorem check_tx_nonce (tx : CkbTx) (s : ChainState) (ev : List Event) :
    (((check_tx tx) s ev).2.1).nonce = s.nonce := by
  unfold check_tx
  cases tx.outputs.head? with
  | none => rfl
  | some output =>
    dsimp only
    cases output.type_ with
    | none => rfl
    | some script =>
      dsimp only
      refine nonce_bind_pres _ _ ?_ ?_ s ev
      · intro s ev
        cases Hash.from_hex SUDT_CODE_HASH <;> rfl
      · intro sudt s ev
        simp only [ite_run, throwE_run]
        split <;> rfl

theorem submit_one_nonce (ctx : ServiceContext) (m : CkbMessage) (s : ChainState)
    (ev : List Event) : (((submit_one ctx m) s ev).2.1).nonce = s.nonce := by
  unfold submit_one
  refine nonce_bind_pres _ _ (fun s ev => check_tx_nonce m.tx s ev) ?_ s ev
  intro a s ev
  cases m.tx.outputs.head? with
  | none => rfl
  | some output =>
    dsimp only
    cases output.type_ with
    | none => rfl
    | some script =>
      dsimp only
      refine nonce_bind_pres _ _ ?_ ?_ s ev
      · intro s ev
        cases Hash.from_hex (Hex.as_string script.args) <;> rfl
      · intro tid s ev
        cases m.tx.outputs_data.head? with
        | none => rfl
        | some d0 =>
          dsimp only
          cases hexDecode (Hex.as_string_trim0x d0) with
          | none => rfl
          | some ab =>
            dsimp only
            simp only [ite_run, panicked_run]
            split
            · rfl
            · cases m.tx.witnesses.getLast? with
              | none => rfl
              | some w =>
                dsimp only
                refine nonce_bind_pres _ _ ?_ ?_ s ev
                · intro s ev
                  cases Address.from_hex (Hex.as_string w) <;> rfl
                · intro recv s ev
                  refine nonce_bind_pres _ _
                    (fun s ev => mint_token_nonce _ _ s ev) ?_ s ev
                  intro x s ev
                  refine nonce_bind_pres _ _ (fun s ev => rfl) ?_ s ev
                  intro y s ev
                  refine nonce_bind_pres _ _
                    (fun s ev => mint_token_nonce _ _ s ev)
                    (fun z s ev => rfl) s ev

theorem submit_messages_loop_nonce (ctx : ServiceContext) (ms : List CkbMessage) :
    ∀ s ev, (((submit_messages_loop ctx ms) s ev).2.1).nonce = s.nonce := by
  induction ms with
  | nil =>
    intro s ev
    rfl
  | cons m rest ih =>
    intro s ev
    exact nonce_bind_pres _ _ (fun s ev => submit_one_nonce ctx m s ev)
      (fun a s ev => ih s ev) s ev

theorem submit_messages_nonce (ctx : ServiceContext) (p : MessagePayload)
    (s : ChainState) (ev : List Event) :
    (((submit_messages ctx p) s ev).2.1).nonce = s.nonce :=
  submit_messages_loop_nonce ctx p.messages s ev

/-- **C5**: the global withdrawal nonce increases by exactly 1 on every
successful `burn_sudt` (burnForWithdrawal) and the emitted withdrawal
event carries the post-increment nonce plus the asset id, the caller,
the foreign receiver and the amount; a failed burn leaves the nonce
unchanged; and no public operation ever decreases the nonce (all the
others leave it exactly unchanged). -/
theorem c5_withdrawal_nonce (s : ChainState) (ctx : ServiceContext) (p : BurnPayload) :
    ((run (burn_sudt ctx p) s).1 = Outcome.ok () →
      ((run (burn_sudt ctx p) s).2.1).nonce = s.nonce + 1 ∧
      (run (burn_sudt ctx p) s).2.2 =
        [Event.burnToken { asset_id := p.token_id, muta_sender := ctx.caller, ckb_receiver := p.receiver, amount := p.amount, nonce := s.nonce + 1, kind := "cross_to_ckb", topic := "burn_asset" }]) ∧
    (∀ e, (run (burn_sudt ctx p) s).1 = Outcome.err e →
      ((run (burn_sudt ctx p) s).2.1).nonce = s.nonce) ∧
    s.nonce ≤ ((run (burn_sudt ctx p) s).2.1).nonce ∧
    (∀ cp : CreateAssetPayload, ((run (create_asset ctx cp) s).2.1).nonce = s.nonce) ∧
    (∀ mp : MintTokenPayload, ((run (mint_token ctx mp) s).2.1).nonce = s.nonce) ∧
    (∀ bp : BurnTokenPayload, ((run (burn_token ctx bp) s).2.1).nonce = s.nonce) ∧
    (∀ tp : TransferPayload, ((run (transfer ctx tp) s).2.1).nonce = s.nonce) ∧
    (∀ ap : TransferPayload, ((run (approve ctx ap) s).2.1).nonce = s.nonce) ∧
    (∀ fp : TransferFromPayload, ((run (transfer_from ctx fp) s).2.1).nonce = s.nonce) ∧
    (∀ up : UpdateHeadersPayload, ((run (update_headers ctx up) s).2.1).nonce = s.nonce) ∧
    (∀ mp : MessagePayload, ((run (submit_messages ctx mp) s).2.1).nonce = s.nonce) := by
  refine ⟨?_, ?_, ?_,
    fun cp => create_asset_nonce ctx cp s [],
    fun mp => mint_token_nonce ctx mp s [],
    fun bp => burn_token_nonce ctx bp s [],
    fun tp => transfer_nonce ctx tp s [],
    fun ap => approve_nonce ctx ap s [],
    fun fp => transfer_from_nonce ctx fp s [],
    fun up => update_headers_nonce ctx up s [],
    fun mp => submit_messages_nonce ctx mp s []⟩ <;>
  · unfold run burn_sudt
    rcases hb : burn_token { caller := ctx.caller, extra := some ADMISSION_TOKEN }
        { token_id := p.token_id, user := ctx.caller, amount := p.amount } s []
      with ⟨o, s1, ev1⟩
    have hs1 : s1.nonce = s.nonce := by
      have h2 := burn_token_nonce { caller := ctx.caller, extra := some ADMISSION_TOKEN }
        { token_id := p.token_id, user := ctx.caller, amount := p.amount } s []
      rw [hb] at h2
      exact h2
    have hev1 : ev1 = [] := by
      have h2 := burn_token_events { caller := ctx.caller, extra := some ADMISSION_TOKEN }
        { token_id := p.token_id, user := ctx.caller, amount := p.amount } s []
      rw [hb] at h2
      exact h2
    simp only [bind_run, hb, nonceAdd, nonceGet, modifyState_run, getState_run,
      M_pure_run, pure_run, emitEvent_run]
    cases o with
    | ok a =>
      simp [hs1, hev1]
    | err e =>
      simp [hs1]
    | panicked msg =>
      simp [hs1]

/-- Witness for C5: on `stLedger`, burning 100 `tok1` for withdrawal
succeeds; the nonce goes 0 → 1 and the event carries nonce 1. -/
theorem c5_withdrawal_nonce_witness :
    (run (burn_sudt ⟨acc1, none⟩ ⟨tok1, "ckbaddr", 100⟩) stLedger).1 = Outcome.ok () ∧
    (((run (burn_sudt ⟨acc1, none⟩ ⟨tok1, "ckbaddr", 100⟩) stLedger).2.1).nonce
        = stLedger.nonce + 1 ∧
     (run (burn_sudt ⟨acc1, none⟩ ⟨tok1, "ckbaddr", 100⟩) stLedger).2.2 =
        [Event.burnToken { asset_id := tok1, muta_sender := acc1, ckb_receiver := "ckbaddr", amount := 100, nonce := stLedger.nonce + 1, kind := "cross_to_ckb", topic := "burn_asset" }]) :=
  ⟨by decide,
   (c5_withdrawal_nonce stLedger ⟨acc1, none⟩ ⟨tok1, "ckbaddr", 100⟩).1 (by decide)⟩

/-! ### Deposit fee split -/

/-- The constant SUDT code hash parses to `sudtHash`. -/
theorem sudt_hash_parses : Hash.from_hex SUDT_CODE_HASH = Except.ok sudtHash := by
  decide

theorem balOf_creditPost_self (s : ChainState) (u : Address) (X : Hash) (amt : Nat) :
    balOf (creditPost s u X amt) u X = balOf s u X + amt := by
  unfold creditPost balOf
  rw [alGet_insert_self]
  rfl

theorem balOf_creditPost_other (s : ChainState) (u : Address) (X : Hash) (amt : Nat)
    (u' : Address) (X' : Hash) (h : ((u', X') : Address × Hash) ≠ (u, X)) :
    balOf (creditPost s u X amt) u' X' = balOf s u' X' := by
  unfold creditPost balOf
  rw [alGet_insert_ne _ _ _ _ h]

/-- Success behaviour of `mint_token` on an already-registered token with
an elevated context and no credit overflow. -/
theorem mint_token_registered_ok (ctx : ServiceContext) (p : MintTokenPayload)
    (s : ChainState) (ev : List Event)
    (hx : ctx.extra.isNone = false)
    (hreg : alContains s.assets p.token_id = true)
    (hov : balOf s p.receiver p.token_id + p.amount < U128_MOD) :
    mint_token ctx p s ev =
      (Outcome.ok (), creditPost s p.receiver p.token_id p.amount, ev) := by
  have hov2 : ¬ (U128_MOD ≤
      ((alGet s.accountValues (p.receiver, p.token_id)).getD
        { value := 0, allowance := [] }).value + p.amount) := by
    rw [balOf_eq_getD]
    omega
  simp only [mint_token, creditPost, assetsContains, sdkGetAccountValueD,
    sdkGetAccountValue, sdkSetAccountValue, assetsInsert, bind_run, getState_run,
    M_pure_run, pure_run, throwE_run, modifyState_run, liftExcept_run, ite_run, hx, hreg,
    hov2, not_true, ite_false, if_false, Bool.false_eq_true, ge_iff_le]
  rw [← balOf_eq_getD]

/-- `mint_token` never emits events, whatever its outcome. -/
theorem mint_token_events (ctx : ServiceContext) (p : MintTokenPayload) (s : ChainState)
    (ev : List Event) : (((mint_token ctx p) s ev).2.2) = ev := by
  cases hfa : Address.from_hex sentinelIssuerHex with
  | ok a =>
    simp only [mint_token, assetsContains, sdkGetAccountValueD, sdkGetAccountValue,
      sdkSetAccountValue, assetsInsert, bind_run, getState_run, M_pure_run, pure_run,
      throwE_run, modifyState_run, emitEvent_run, liftExcept_run, ite_run, hfa]
    repeat' split
    all_goals rfl
  | error e =>
    simp only [mint_token, assetsContains, sdkGetAccountValueD, sdkGetAccountValue,
      sdkSetAccountValue, assetsInsert, bind_run, getState_run, M_pure_run, pure_run,
      throwE_run, modifyState_run, emitEvent_run, liftExcept_run, ite_run, hfa]
    repeat' split
    all_goals rfl

/-- Inversion of a successful `mint_token` on an already-registered
token: the post-state is exactly the receiver's credit. -/
theorem mint_token_registered_inv (ctx : ServiceContext) (p : MintTokenPayload)
    (s : ChainState) (ev : List Event) (u : Unit) (sq : ChainState) (evq : List Event)
    (hx : ctx.extra.isNone = false)
    (hreg : alContains s.assets p.token_id = true)
    (hm : mint_token ctx p s ev = (Outcome.ok u, sq, evq)) :
    sq = creditPost s p.receiver p.token_id p.amount := by
  by_cases hov : U128_MOD ≤ ((alGet s.accountValues (p.receiver, p.token_id)).getD
      { value := 0, allowance := [] }).value + p.amount
  · simp only [mint_token, assetsContains, sdkGetAccountValueD, sdkGetAccountValue,
      sdkSetAccountValue, assetsInsert, bind_run, getState_run, M_pure_run, pure_run,
      throwE_run, modifyState_run, liftExcept_run, ite_run, hx, hreg, hov, not_true,
      ite_false, if_false, Bool.false_eq_true, ge_iff_le, ite_true, if_true,
      Prod.mk.injEq] at hm
    simp at hm
  · have heq := mint_token_registered_ok ctx p s ev hx hreg (by rw [← balOf_eq_getD]; omega)
    rw [heq] at hm
    have h2 : creditPost s p.receiver p.token_id p.amount = sq :=
      congrArg (fun t => t.2.1) hm
    exact h2.symm

/-- **C6** (counterexample): the claim as frozen is false. The fixture
deposit message is valid — on `stBridge` the very same call succeeds —
but on a pre-state where the receiver already holds `2^128 - 1` units,
crediting the net amount overflows u128: the call fails, nothing is
minted to anyone and no mint event is emitted, though the claim
promises the two mints and events for every valid deposit message. -/
theorem c6_counterexample :
    (run (submit_messages ⟨acc1, none⟩ ⟨100, [depositMsg]⟩) stBridge).1 = Outcome.ok () ∧
    (run (submit_messages ⟨acc1, none⟩ ⟨100, [depositMsg]⟩) stBridgeOverflow).1
        = Outcome.err ServiceError.U128Overflow ∧
    (run (submit_messages ⟨acc1, none⟩ ⟨100, [depositMsg]⟩) stBridgeOverflow).2.2 = [] ∧
    balOf (run (submit_messages ⟨acc1, none⟩ ⟨100, [depositMsg]⟩) stBridgeOverflow).2.1
        acc1 tokCross = 0 :=
  ⟨by decide, by decide, by decide, by decide⟩

/-- **C6** (amended): for every deposit message that passes validation
and decodes — token id `tid` from the script args, amount
`a = readU128LE ab` from `outputs_data[0]`, receiver from the last
witness — whenever the `submit_messages` call succeeds (a privileged
mint can fail with `U128Overflow`, aborting the call with nothing
minted), it emits exactly two mint events in order: `a - a/100` to the
decoded receiver first, then the fee `a / 100` (integer floor division)
to the relayer (the caller), and the two minted amounts sum to `a`;
when moreover the token is already registered and the receiver differs
from the relayer, the receiver's balance increases by exactly the net
amount and the relayer's by exactly the fee. -/
theorem c6_deposit_fee_split (s : ChainState) (ctx : ServiceContext) (height : Nat)
    (tx : CkbTx) (pf : List Hash) (output : CellOutput) (script : Script)
    (tid : Hash) (d0 : Hex) (ab : List Nat) (w : Hex) (recv : Address)
    (hout : tx.outputs.head? = some output)
    (htype : output.type_ = some script)
    (hch : script.code_hash = sudtHash)
    (hwit : tx.witnesses ≠ [])
    (htid : Hash.from_hex (Hex.as_string script.args) = Except.ok tid)
    (hdata : tx.outputs_data.head? = some d0)
    (hab : hexDecode (Hex.as_string_trim0x d0) = some ab)
    (hlen : 16 ≤ ab.length)
    (hw : tx.witnesses.getLast? = some w)
    (hrecv : Address.from_hex (Hex.as_string w) = Except.ok recv)
    (hok : (run (submit_messages ctx ⟨height, [⟨tx, pf⟩]⟩) s).1 = Outcome.ok ()) :
    (run (submit_messages ctx ⟨height, [⟨tx, pf⟩]⟩) s).2.2 =
      [Event.mintToken { asset_id := tid, asset_name := crossTokenName tid, receiver := recv, amount := readU128LE ab - readU128LE ab / 100, kind := "cross_to_muta", topic := "mint_asset" },
       Event.mintToken { asset_id := tid, asset_name := crossTokenName tid, receiver := ctx.caller, amount := readU128LE ab / 100, kind := "cross_to_muta", topic := "mint_asset" }] ∧
    (readU128LE ab - readU128LE ab / 100) + readU128LE ab / 100 = readU128LE ab ∧
    (alContains s.assets tid = true → recv ≠ ctx.caller →
      balOf (run (submit_messages ctx ⟨height, [⟨tx, pf⟩]⟩) s).2.1 recv tid
          = balOf s recv tid + (readU128LE ab - readU128LE ab / 100) ∧
      balOf (run (submit_messages ctx ⟨height, [⟨tx, pf⟩]⟩) s).2.1 ctx.caller tid
          = balOf s ctx.caller tid + readU128LE ab / 100) := by
  have hlen2 : ¬ (ab.length < 16) := by omega
  have hcond : ¬ (script.code_hash ≠ sudtHash ∨ tx.witnesses = []) := by
    simp [hch, hwit]
  unfold run submit_messages submit_messages_loop submit_one check_tx at hok ⊢
  simp only [hout, htype, hdata, hab, hw, sudt_hash_parses, liftExcept_run, htid, hrecv,
    bind_run, M_pure_run, pure_run, throwE_run, panicked_run, emitEvent_run, ite_run,
    hcond, hlen2, ite_false, if_false] at hok ⊢
  rcases hm1 : mint_token { caller := ctx.caller, extra := some ADMISSION_TOKEN }
      { token_id := tid, receiver := recv, amount := readU128LE ab - readU128LE ab / 100 }
      s [] with ⟨o1, s1, ev1⟩
  rw [hm1] at hok
  have hev1 : ev1 = [] := by
    have h2 := mint_token_events { caller := ctx.caller, extra := some ADMISSION_TOKEN }
      { token_id := tid, receiver := recv, amount := readU128LE ab - readU128LE ab / 100 }
      s []
    rw [hm1] at h2
    exact h2
  cases o1 with
  | err e => exact nomatch hok
  | panicked m => exact nomatch hok
  | ok u =>
    subst hev1
    dsimp only at hok ⊢
    simp only [List.nil_append] at hok ⊢
    rcases hm2 : mint_token { caller := ctx.caller, extra := some ADMISSION_TOKEN }
        { token_id := tid, receiver := ctx.caller, amount := readU128LE ab / 100 } s1
        [Event.mintToken { asset_id := tid, asset_name := crossTokenName tid, receiver := recv, amount := readU128LE ab - readU128LE ab / 100, kind := "cross_to_muta", topic := "mint_asset" }]
      with ⟨o2, s2, ev2⟩
    rw [hm2] at hok
    have hev2 : ev2 = [Event.mintToken { asset_id := tid, asset_name := crossTokenName tid, receiver := recv, amount := readU128LE ab - readU128LE ab / 100, kind := "cross_to_muta", topic := "mint_asset" }] := by
      have h2 := mint_token_events { caller := ctx.caller, extra := some ADMISSION_TOKEN }
        { token_id := tid, receiver := ctx.caller, amount := readU128LE ab / 100 } s1
        [Event.mintToken { asset_id := tid, asset_name := crossTokenName tid, receiver := recv, amount := readU128LE ab - readU128LE ab / 100, kind := "cross_to_muta", topic := "mint_asset" }]
      rw [hm2] at h2
      exact h2
    cases o2 with
    | err e => exact nomatch hok
    | panicked m => exact nomatch hok
    | ok u2 =>
      subst hev2
      dsimp only at hok ⊢
      simp only [submit_messages_loop, M_pure_run, bind_run] at hok ⊢
      refine ⟨rfl, ?_, ?_⟩
      · have := Nat.div_le_self (readU128LE ab) 100
        omega
      · intro hreg hner
        have hpairCR : ((ctx.caller, tid) : Address × Hash) ≠ (recv, tid) := by
          simp only [ne_eq, Prod.mk.injEq, not_and]
          exact fun hh _ => hner hh.symm
        have hpairRC : ((recv, tid) : Address × Hash) ≠ (ctx.caller, tid) := by
          simp only [ne_eq, Prod.mk.injEq, not_and]
          exact fun hh _ => hner hh
        have h1 := mint_token_registered_inv _ _ _ _ _ _ _ (by rfl) hreg hm1
        have hreg1 : alContains s1.assets tid = true := by
          rw [h1]
          exact hreg
        have h2 := mint_token_registered_inv _ _ _ _ _ _ _ (by rfl) hreg1 hm2
        rw [h2, h1]
        constructor
        · rw [balOf_creditPost_other _ _ _ _ _ _ hpairRC, balOf_creditPost_self]
        · rw [balOf_creditPost_self, balOf_creditPost_other _ _ _ _ _ _ hpairCR]

/-- Witness for C6 (amended): the example from the spec — the
10000-unit deposit on `stBridge` succeeds; the theorem yields the two
ordered mint events and the 9900/100 crediting of receiver and
relayer. -/
theorem c6_deposit_fee_split_witness :
    (run (submit_messages ⟨acc1, none⟩ ⟨100, [depositMsg]⟩) stBridge).1 = Outcome.ok () ∧
    ((run (submit_messages ⟨acc1, none⟩ ⟨100, [depositMsg]⟩) stBridge).2.2 =
      [Event.mintToken { asset_id := tokCross, asset_name := crossTokenName tokCross, receiver := acc2, amount := 9900, kind := "cross_to_muta", topic := "mint_asset" },
       Event.mintToken { asset_id := tokCross, asset_name := crossTokenName tokCross, receiver := acc1, amount := 100, kind := "cross_to_muta", topic := "mint_asset" }] ∧
     9900 + 100 = (10000 : Nat) ∧
     (alContains stBridge.assets tokCross = true → acc2 ≠ acc1 →
       balOf (run (submit_messages ⟨acc1, none⟩ ⟨100, [depositMsg]⟩) stBridge).2.1
           acc2 tokCross = balOf stBridge acc2 tokCross + 9900 ∧
       balOf (run (submit_messages ⟨acc1, none⟩ ⟨100, [depositMsg]⟩) stBridge).2.1
           acc1 tokCross = balOf stBridge acc1 tokCross + 100)) :=
  ⟨by decide,
   c6_deposit_fee_split stBridge ⟨acc1, none⟩ 100 depositTx [] depositOutput depositScript
     tokCross depositDataHex depositAmountBytes depositWitnessHex acc2
     (by decide) (by decide) (by decide) (by decide) (by decide) (by decide) (by decide)
     (by decide) (by decide) (by decide) (by decide)⟩

/-- **C10**: when the call context carries an extra byte payload that
decodes (as UTF-8 text, then hex) to an address `a`, `transfer` and
`transfer_from` behave exactly as if called by `a` with no extra
payload: `transfer` debits `a` instead of the caller, and
`transfer_from` consumes (and records in its event) the allowance of
spender `a`. -/
theorem c10_extra_selects_identity (ctx : ServiceContext) (bs : List Nat) (a : Address)
    (p : TransferPayload) (pf : TransferFromPayload) (s : ChainState) (ev : List Event)
    (hex : ctx.extra = some bs)
    (hascii : bs.all (· < 128) = true)
    (hdec : Address.from_hex ⟨bs.map Char.ofNat⟩ = Except.ok a) :
    transfer ctx p s ev = transfer ⟨a, none⟩ p s ev ∧
    transfer_from ctx pf s ev = transfer_from ⟨a, none⟩ pf s ev := by
  constructor
  · unfold transfer
    rw [hex]
    simp only [extraToAddress, hascii, hdec, liftExcept_run, ite_run, ite_true, if_true,
      bind_run, M_pure_run]
  · unfold transfer_from
    rw [hex]
    simp only [extraToAddress, hascii, hdec, liftExcept_run, ite_run, ite_true, if_true,
      bind_run, M_pure_run]

/-- Witness for C10: with extra bytes spelling `0x0202…02`, `transfer`
and `transfer_from` on `stLedger` behave as calls by `acc2`. -/
theorem c10_extra_selects_identity_witness :
    (⟨acc3, some extraBytesAcc2⟩ : ServiceContext).extra = some extraBytesAcc2 ∧
    extraBytesAcc2.all (· < 128) = true ∧
    Address.from_hex ⟨extraBytesAcc2.map Char.ofNat⟩ = Except.ok acc2 ∧
    (transfer ⟨acc3, some extraBytesAcc2⟩ ⟨tok1, acc1, 5⟩ stLedger []
        = transfer ⟨acc2, none⟩ ⟨tok1, acc1, 5⟩ stLedger [] ∧
     transfer_from ⟨acc3, some extraBytesAcc2⟩ ⟨tok1, acc1, acc3, 5⟩ stLedger []
        = transfer_from ⟨acc2, none⟩ ⟨tok1, acc1, acc3, 5⟩ stLedger []) :=
  ⟨rfl, by decide, by decide,
   c10_extra_selects_identity ⟨acc3, some extraBytesAcc2⟩ extraBytesAcc2 acc2
     ⟨tok1, acc1, 5⟩ ⟨tok1, acc1, acc3, 5⟩ stLedger [] rfl (by decide) (by decide)⟩

end MutaCross
